import Mathlib

/-!
Verification development for the chann-data repository.

The repository has two Python scripts:
  * `download_images_parallel.py` — the parallel image acquisition and
    normalization pipeline (URL normalizer, per-file task planner / dedup,
    fetch-convert worker, schedule rewriter);
  * `jiotv-tataplayepg/scrape_epg.py` — the EPG scraper that emits the
    per-channel `today/…` and `tomorrow/…` schedule JSON files.

This file shallowly embeds the functions those scripts run, translated
from the Python source (including the `urllib.parse`, `os.path`,
`hashlib.md5` and `json.dump` library routines the source calls), and
proves or refutes the frozen claims about them.

Modelling conventions, used throughout:
  * Python exceptions are modelled with `Except Unit`; a `try/except`
    handler becomes a `match` on that value.
  * CPython (3.11) string routines are modelled on ASCII faithfully;
    Unicode-only refinements (`str.lower`, `int()` on non-ASCII digits)
    are modelled by their ASCII behaviour, which is all the pipeline's
    data exercises.
  * Python `float` arithmetic is modelled as exact rational arithmetic
    (`ℚ`); `round` is modelled as round-half-to-even, exactly CPython's
    rounding mode, and `int(float)` as truncation toward zero.
  * Filesystem and network effects are modelled by explicit parameters
    (`existing : String → Bool` for file existence, `fetchOk` / oracle
    functions for HTTP and image decoding) and by explicit event lists.
-/

/-! ## Small character and string utilities -/

/-- Whether `needle` occurs as a contiguous sublist of the second list. -/
def charsContains (needle : List Char) : List Char → Bool
  | [] => needle.isEmpty
  | c :: t => needle.isPrefixOf (c :: t) || charsContains needle t

/-- Python `needle in hay` on strings (substring test). -/
def strContains (hay needle : String) : Bool :=
  charsContains needle.data hay.data

/-- ASCII lowercasing, as CPython `str.lower` acts on ASCII data. -/
def asciiLower (s : String) : String :=
  String.mk (s.data.map Char.toLower)

/-- The whitespace characters CPython `int()` strips (ASCII subset). -/
def pyWhitespace (c : Char) : Bool :=
  c == ' ' || c == '\t' || c == '\n' || c == '\r' || c == '\x0b' || c == '\x0c'

/-- Split a character list at the first occurrence of `c`: `(before, after)`,
with `c` itself dropped; `none` when `c` does not occur. -/
def splitFirst (l : List Char) (c : Char) : Option (List Char × List Char) :=
  if l.contains c then
    some (l.takeWhile (fun d => d ≠ c), (l.dropWhile (fun d => d ≠ c)).drop 1)
  else none

/-- Python `s.split(sep)` for a one-character separator, on the character
list; the accumulator holds the current chunk reversed. -/
def pySplitAux (sep : Char) : List Char → List Char → List (List Char)
  | [], cur => [cur.reverse]
  | c :: t, cur =>
    if c = sep then cur.reverse :: pySplitAux sep t []
    else pySplitAux sep t (c :: cur)

/-- Python `s.split(sep)` for a one-character separator. -/
def pySplitChar (s : String) (sep : Char) : List String :=
  (pySplitAux sep s.data []).map List.asString

/-- Python `s.replace(a, b)` for one-character needle and replacement. -/
def replaceChar (s : String) (a b : Char) : String :=
  String.mk (s.data.map (fun c => if c = a then b else c))

/-! ## CPython `int()` on strings -/

/-- After one digit has been read: remaining characters may be digits, with
single underscores allowed strictly between digits (CPython's int literal
grammar for `int(str)`). -/
def intBody : List Char → Bool
  | [] => true
  | '_' :: c :: t => c.isDigit && intBody t
  | '_' :: [] => false
  | c :: t => c.isDigit && intBody t

/-- A valid unsigned digit sequence for CPython `int(str)`. -/
def pyIntDigits : List Char → Bool
  | [] => false
  | c :: t => c.isDigit && intBody t

/-- Numeric value of a digit sequence, skipping the underscores. -/
def digitsVal (l : List Char) : Nat :=
  l.foldl (fun n c => if c == '_' then n else n * 10 + (c.toNat - '0'.toNat)) 0

/-- CPython `int(s)`, `none` when it raises `ValueError`: optional
whitespace, an optional sign, then digits with single underscores between
them. (Non-ASCII digits and whitespace are outside the modelled data.) -/
def pyInt? (s : String) : Option Int :=
  let l := ((s.data.dropWhile pyWhitespace).reverse.dropWhile pyWhitespace).reverse
  match l with
  | '+' :: rest => if pyIntDigits rest then some (Int.ofNat (digitsVal rest)) else none
  | '-' :: rest => if pyIntDigits rest then some (-(Int.ofNat (digitsVal rest))) else none
  | rest => if pyIntDigits rest then some (Int.ofNat (digitsVal rest)) else none

/-- CPython `round` on a real value: round half to even (banker's rounding). -/
def pyRound (q : ℚ) : ℤ :=
  let f := Rat.floor q
  let r := q - (f : ℚ)
  if r < 1/2 then f
  else if 1/2 < r then f + 1
  else if f % 2 = 0 then f else f + 1

/-- `pyRound` of the fraction `N / D` (`D ≠ 0`), computed with integer
arithmetic so that it evaluates inside the kernel; `pyRound_intCast_div`
below proves it equal to `pyRound ((N : ℚ) / (D : ℚ))`. -/
def pyRoundInt (N D : Int) : Int :=
  let N2 := if D < 0 then -N else N
  let Dp := (D.natAbs : Int)
  let f := N2 / Dp
  let r := N2 % Dp
  if 2 * r < Dp then f
  else if Dp < 2 * r then f + 1
  else if f % 2 = 0 then f else f + 1

/-! ## UTF-8 and percent-coding (`urllib.parse.unquote` / `quote_plus`) -/

/-- UTF-8 encoding of one character. -/
def utf8EncChar (c : Char) : List Nat :=
  let n := c.toNat
  if n < 0x80 then [n]
  else if n < 0x800 then [0xC0 + n / 64, 0x80 + n % 64]
  else if n < 0x10000 then [0xE0 + n / 4096, 0x80 + (n / 64) % 64, 0x80 + n % 64]
  else [0xF0 + n / 262144, 0x80 + (n / 4096) % 64, 0x80 + (n / 64) % 64, 0x80 + n % 64]

/-- UTF-8 bytes of a string. -/
def utf8Bytes (s : String) : List Nat :=
  (s.data.map utf8EncChar).flatten

/-- The U+FFFD replacement character. -/
def replChar : Char := Char.ofNat 0xFFFD

/-- Whether a byte is a UTF-8 continuation byte. -/
def utf8Cont (b : Nat) : Bool := 0x80 ≤ b && b ≤ 0xBF

/-- Validity of the continuation bytes of a multi-byte UTF-8 sequence led
by `b` (range checks ruling out overlong encodings and surrogates). -/
def validSeq (b : Nat) (conts : List Nat) : Bool :=
  conts.all utf8Cont &&
  (match conts with
   | b2 :: _ =>
     (b ≠ 0xE0 || 0xA0 ≤ b2) && (b ≠ 0xED || b2 ≤ 0x9F)
       && (b ≠ 0xF0 || 0x90 ≤ b2) && (b ≠ 0xF4 || b2 ≤ 0x8F)
   | [] => true)

/-- Code point of a valid UTF-8 sequence with lead byte `b`. -/
def decodeSeq (b : Nat) (conts : List Nat) : Char :=
  match conts with
  | [b2] => Char.ofNat ((b - 0xC0) * 64 + (b2 - 0x80))
  | [b2, b3] => Char.ofNat ((b - 0xE0) * 4096 + (b2 - 0x80) * 64 + (b3 - 0x80))
  | [b2, b3, b4] =>
    Char.ofNat ((b - 0xF0) * 262144 + (b2 - 0x80) * 4096 + (b3 - 0x80) * 64 + (b4 - 0x80))
  | _ => replChar

/-- UTF-8 decoding with `errors="replace"`: valid sequences decode, an
invalid byte yields one replacement character (CPython may merge some
invalid runs into fewer replacement characters; the claims' data is valid
ASCII, where the two agree). -/
def utf8DecGo : Nat → List Nat → List Char
  | 0, _ => []
  | _ + 1, [] => []
  | fuel + 1, b :: t =>
    if b < 0x80 then Char.ofNat b :: utf8DecGo fuel t
    else
      let need := if b ≤ 0xC1 then 0 else if b ≤ 0xDF then 1
        else if b ≤ 0xEF then 2 else if b ≤ 0xF4 then 3 else 0
      let conts := t.take need
      if need ≠ 0 ∧ conts.length = need ∧ validSeq b conts then
        decodeSeq b conts :: utf8DecGo fuel (t.drop need)
      else replChar :: utf8DecGo fuel t

/-- The decoder, with fuel bounding the recursion structurally (each step
consumes at least one byte, so `l.length` steps always suffice). -/
def utf8Dec (l : List Nat) : List Char :=
  utf8DecGo l.length l

/-- Hex digit value, both cases accepted (as `unquote` accepts). -/
def hexVal? (c : Char) : Option Nat :=
  if '0' ≤ c ∧ c ≤ '9' then some (c.toNat - '0'.toNat)
  else if 'a' ≤ c ∧ c ≤ 'f' then some (c.toNat - 'a'.toNat + 10)
  else if 'A' ≤ c ∧ c ≤ 'F' then some (c.toNat - 'A'.toNat + 10)
  else none

/-- Scan for `%xx` escapes: each becomes a byte, everything else stays a
literal character (invalid escapes stay literal, as in CPython). -/
def pctTokens : List Char → List (Sum Nat Char)
  | [] => []
  | '%' :: a :: b :: t =>
    match hexVal? a, hexVal? b with
    | some x, some y => Sum.inl (16 * x + y) :: pctTokens t
    | _, _ => Sum.inr '%' :: pctTokens (a :: b :: t)
  | c :: t => Sum.inr c :: pctTokens t

/-- Assemble scanned tokens: maximal byte runs are UTF-8 decoded with
replacement, literal characters pass through. `pend` holds the current
byte run, reversed. -/
def pctAssemble : List (Sum Nat Char) → List Nat → List Char
  | [], pend => utf8Dec pend.reverse
  | Sum.inl b :: t, pend => pctAssemble t (b :: pend)
  | Sum.inr c :: t, pend => utf8Dec pend.reverse ++ c :: pctAssemble t []

/-- `urllib.parse.unquote` with its default UTF-8 / replace decoding. -/
def unquote (s : String) : String :=
  String.mk (pctAssemble (pctTokens s.data) [])

/-- Characters `urllib.parse.quote` never encodes (`ALWAYS_SAFE`,
with `quote_plus`'s empty `safe` set). -/
def quoteSafeChar (c : Char) : Bool :=
  c.isAlphanum || c == '_' || c == '.' || c == '-' || c == '~'

/-- Uppercase hex digit. -/
def hexUpper (n : Nat) : Char :=
  if n < 10 then Char.ofNat ('0'.toNat + n) else Char.ofNat ('A'.toNat + n - 10)

/-- A percent-encoded byte, `%XX`. -/
def pctByte (b : Nat) : List Char :=
  ['%', hexUpper (b / 16), hexUpper (b % 16)]

/-- `urllib.parse.quote_plus` with `safe=''` (what `urlencode` applies):
safe characters kept, space becomes `+`, every other character's UTF-8
bytes are percent-encoded. -/
def quote_plus (s : String) : String :=
  String.mk ((s.data.map (fun c =>
    if quoteSafeChar c then [c]
    else if c == ' ' then ['+']
    else ((utf8EncChar c).map pctByte).flatten)).flatten)

/-! ## `urllib.parse.urlparse` and friends (CPython 3.11) -/

/-- The six components of `urllib.parse.ParseResult`. -/
structure UrlParts where
  scheme : String
  netloc : String
  path : String
  params : String
  query : String
  fragment : String
deriving DecidableEq, Repr

/-- WHATWG C0-control-or-space class, lstripped by `urlsplit`. -/
def isC0OrSpace (c : Char) : Bool := c.toNat ≤ 0x20

/-- Bytes `urlsplit` removes anywhere in the URL. -/
def isUnsafeUrlChar (c : Char) : Bool := c == '\t' || c == '\r' || c == '\n'

/-- Characters allowed in a scheme after the first (`scheme_chars`). -/
def schemeChar (c : Char) : Bool :=
  c.isAlphanum || c == '+' || c == '-' || c == '.'

/-- `_splitparams`: split `params` off the last path segment at its first
`;`. Only called when the path contains a `;`. -/
def splitParams (l : List Char) : List Char × List Char :=
  if l.contains ';' then
    if l.contains '/' then
      let lastSeg := (l.reverse.takeWhile (fun c => c ≠ '/')).reverse
      let pre := l.take (l.length - lastSeg.length)
      match splitFirst lastSeg ';' with
      | some (a, b) => (pre ++ a, b)
      | none => (l, [])
    else
      match splitFirst l ';' with
      | some (a, b) => (a, b)
      | none => (l, [])
  else (l, [])

/-- `urllib.parse.urlparse` (`urlsplit` plus the params split), CPython
3.11: lstrip C0-controls/space, remove tab/CR/LF, split off the scheme
(lowercased), the `//netloc` (raising `ValueError` — here `.error ()` — on
mismatched square brackets), the fragment at the first `#`, the query at
the first `?`, and the params after the last path segment's `;`. -/
def urlparse (url : String) : Except Unit UrlParts := do
  let l1 := (url.data.dropWhile isC0OrSpace).filter (fun c => !isUnsafeUrlChar c)
  let (scheme, rest) :=
    let pre := l1.takeWhile (fun c => c ≠ ':')
    match pre with
    | c :: _ =>
      if pre.length < l1.length ∧ c.isAlpha ∧ pre.all schemeChar then
        ((pre.map Char.toLower).asString, l1.drop (pre.length + 1))
      else ("", l1)
    | [] => ("", l1)
  let (netloc, rest2) ←
    if rest.take 2 = ['/', '/'] then
      let nl := (rest.drop 2).takeWhile (fun c => c ∉ ['/', '?', '#'])
      if (nl.contains '[' && !nl.contains ']') || (nl.contains ']' && !nl.contains '[') then
        throw ()
      else
        pure (nl, (rest.drop 2).drop nl.length)
    else pure ([], rest)
  let (rest3, frag) := (splitFirst rest2 '#').getD (rest2, [])
  let (rest4, query) := (splitFirst rest3 '?').getD (rest3, [])
  let (path, params) := splitParams rest4
  pure ⟨scheme, netloc.asString, path.asString, params.asString, query.asString, frag.asString⟩

/-- `urllib.parse.parse_qsl(qs, keep_blank_values=True)`: split on `&`,
skip empty chunks, split each chunk at its first `=` (missing value
becomes the empty string), `+` means space, percent-escapes decoded. -/
def parse_qsl (qs : String) : List (String × String) :=
  (pySplitChar qs '&').foldl (fun acc nv =>
    if nv = "" then acc
    else
      match splitFirst nv.data '=' with
      | some (n, v) =>
        acc ++ [(unquote (replaceChar (String.mk n) '+' ' '),
                 unquote (replaceChar (String.mk v) '+' ' '))]
      | none => acc ++ [(unquote (replaceChar nv '+' ' '), "")]) []

/-- Group an association list by key, preserving first-occurrence order of
the keys and the order of each key's values: Python dict grouping. -/
def groupPairs (l : List (String × String)) : List (String × List String) :=
  l.foldl (fun acc kv =>
    if acc.any (fun e => e.1 == kv.1) then
      acc.map (fun e => if e.1 == kv.1 then (e.1, e.2 ++ [kv.2]) else e)
    else acc ++ [(kv.1, [kv.2])]) []

/-- `urllib.parse.parse_qs(qs, keep_blank_values=True)`. -/
def parse_qs (qs : String) : List (String × List String) :=
  groupPairs (parse_qsl qs)

/-- Python `qs[k]` read access on the grouped dict. -/
def lookupGrouped (qs : List (String × List String)) (k : String) : Option (List String) :=
  (qs.find? (fun e => e.1 == k)).map (fun e => e.2)

/-- Python `qs[k] = vs` on the grouped dict: replace in place when the key
exists (the pipeline's only use), append otherwise. -/
def setGrouped (qs : List (String × List String)) (k : String) (vs : List String) :
    List (String × List String) :=
  if qs.any (fun e => e.1 == k) then
    qs.map (fun e => if e.1 == k then (k, vs) else e)
  else qs ++ [(k, vs)]

/-- `urllib.parse.urlencode(qs, doseq=True)`: each key-value pair encoded
with `quote_plus` and joined with `&`, keys in dict order, each key's
values in sequence order. -/
def urlencode (qs : List (String × List String)) : String :=
  String.intercalate "&" ((qs.map (fun e =>
    e.2.map (fun v => quote_plus e.1 ++ "=" ++ quote_plus v))).flatten)

/-- `urllib.parse.urlunsplit`. -/
def urlunsplit (scheme netloc url query frag : String) : String :=
  let url1 :=
    if netloc ≠ "" ∨ (url ≠ "" ∧ url.take 2 = "//") then
      "//" ++ netloc ++ (if url ≠ "" ∧ url.take 1 ≠ "/" then "/" ++ url else url)
    else url
  let url2 := if scheme ≠ "" then scheme ++ ":" ++ url1 else url1
  let url3 := if query ≠ "" then url2 ++ "?" ++ query else url2
  if frag ≠ "" then url3 ++ "#" ++ frag else url3

/-- `urllib.parse.urlunparse`. -/
def urlunparse (p : UrlParts) : String :=
  urlunsplit p.scheme p.netloc
    (if p.params ≠ "" then p.path ++ ";" ++ p.params else p.path) p.query p.fragment

/-! ## The URL Normalizer (`parse_and_adjust_size`, source lines 75–112) -/

/-- The pipeline's configured target width (`TARGET_WIDTH = 250`). -/
def TARGET_WIDTH : Nat := 250

/-- The inner `try` block of `parse_and_adjust_size` (source lines 90–96):
parse `w` and `h` as ints and recompute the height; any exception inside —
a failed `int()` or the `ZeroDivisionError` from `target_width / 0` — is
caught by the inner handler, which substitutes the square fallback.
`h * (tw / w)` in Python floats is modelled as the exact rational
`(h * tw) / w`, and `round` as CPython's round-half-to-even. -/
def adjustedLockValue (tw : Nat) (ws hs : String) : String :=
  match pyInt? ws, pyInt? hs with
  | some w, some h =>
    if w = 0 then toString tw ++ "x" ++ toString tw
    else toString tw ++ "x" ++ toString (max 1 (pyRoundInt (h * tw) w))
  | _, _ => toString tw ++ "x" ++ toString tw

/-- The body of `parse_and_adjust_size`'s outer `try` (source lines 77–109);
`.error ()` is an exception reaching the outer bare `except`. The two
raising sites are `urlparse` (mismatched brackets) and the tuple
destructuring `w, h = lock.split("x")` when the split does not have exactly
two parts; `lock_vals[0]` on an empty list is kept as a raise for totality
(unreachable: `parse_qs` never produces empty value lists). -/
def tryAdjust (url : String) (tw : Nat) : Except Unit String :=
  match urlparse url with
  | .error er => .error er
  | .ok p =>
    match lookupGrouped (parse_qs p.query) "lock" with
    | none => .ok url
    | some [] => .error ()
    | some (lock :: _) =>
      if strContains lock "x" then
        match pySplitChar lock 'x' with
        | [ws, hs] =>
          .ok (urlunparse { p with
            query := urlencode (setGrouped (parse_qs p.query) "lock"
              [adjustedLockValue tw ws hs]) })
        | _ => .error ()
      else .ok (urlunparse { p with query := urlencode (parse_qs p.query) })

/-- `parse_and_adjust_size(url, target_width)` (source lines 75–112): the
outer `except` returns the original URL unchanged. -/
def parse_and_adjust_size (url : String) (tw : Nat) : String :=
  match tryAdjust url tw with
  | .ok s => s
  | .error _ => url

/-! ## `hashlib.md5` -/

/-- Two to the 32nd, the word modulus of MD5. -/
def M32 : Nat := 4294967296

/-- The MD5 sine-derived constant table `K`. -/
def md5K : List Nat := [
  3614090360, 3905402710, 606105819, 3250441966, 4118548399, 1200080426, 2821735955, 4249261313,
  1770035416, 2336552879, 4294925233, 2304563134, 1804603682, 4254626195, 2792965006, 1236535329,
  4129170786, 3225465664, 643717713, 3921069994, 3593408605, 38016083, 3634488961, 3889429448,
  568446438, 3275163606, 4107603335, 1163531501, 2850285829, 4243563512, 1735328473, 2368359562,
  4294588738, 2272392833, 1839030562, 4259657740, 2763975236, 1272893353, 4139469664, 3200236656,
  681279174, 3936430074, 3572445317, 76029189, 3654602809, 3873151461, 530742520, 3299628645,
  4096336452, 1126891415, 2878612391, 4237533241, 1700485571, 2399980690, 4293915773, 2240044497,
  1873313359, 4264355552, 2734768916, 1309151649, 4149444226, 3174756917, 718787259, 3951481745]

/-- The MD5 per-round left-rotation amounts `s`. -/
def md5S : List Nat := [
  7, 12, 17, 22, 7, 12, 17, 22, 7, 12, 17, 22, 7, 12, 17, 22,
  5, 9, 14, 20, 5, 9, 14, 20, 5, 9, 14, 20, 5, 9, 14, 20,
  4, 11, 16, 23, 4, 11, 16, 23, 4, 11, 16, 23, 4, 11, 16, 23,
  6, 10, 15, 21, 6, 10, 15, 21, 6, 10, 15, 21, 6, 10, 15, 21]

/-- 32-bit left rotation (argument below `2^32`). -/
def rotl32 (x s : Nat) : Nat :=
  ((x <<< s) % M32) ||| (x >>> (32 - s))

/-- 32-bit complement (argument below `2^32`). -/
def not32 (x : Nat) : Nat := 4294967295 - x

/-- Little-endian byte rendering of `v`, `n` bytes. -/
def leBytes (n v : Nat) : List Nat :=
  (List.range n).map (fun i => (v >>> (8 * i)) % 256)

/-- MD5 padding: `0x80`, zeros to 56 mod 64, 8-byte little-endian bit length. -/
def md5Pad (msg : List Nat) : List Nat :=
  let len := msg.length
  let zeros := (64 + 56 - (len + 1) % 64) % 64
  msg ++ [0x80] ++ List.replicate zeros 0 ++ leBytes 8 ((8 * len) % (2 ^ 64))

/-- Split into 64-byte blocks. -/
def chunks64Go : Nat → List Nat → List (List Nat)
  | 0, _ => []
  | _ + 1, [] => []
  | fuel + 1, l => l.take 64 :: chunks64Go fuel (l.drop 64)

/-- Split into 64-byte blocks (fuel-bounded structural recursion; each step
consumes at least one byte). -/
def chunks64 (l : List Nat) : List (List Nat) :=
  chunks64Go l.length l

/-- The 16 little-endian 32-bit words of one block. -/
def md5Words (block : List Nat) : List Nat :=
  (List.range 16).map (fun g =>
    block.getD (4 * g) 0 + 256 * block.getD (4 * g + 1) 0
      + 65536 * block.getD (4 * g + 2) 0 + 16777216 * block.getD (4 * g + 3) 0)

/-- The four MD5 state words. -/
structure MD5State where
  a : Nat
  b : Nat
  c : Nat
  d : Nat
deriving DecidableEq

/-- One of the 64 MD5 rounds. -/
def md5Step (M : List Nat) (st : MD5State) (i : Nat) : MD5State :=
  let F :=
    if i < 16 then (st.b &&& st.c) ||| (not32 st.b &&& st.d)
    else if i < 32 then (st.d &&& st.b) ||| (not32 st.d &&& st.c)
    else if i < 48 then st.b ^^^ st.c ^^^ st.d
    else st.c ^^^ (st.b ||| not32 st.d)
  let g :=
    if i < 16 then i
    else if i < 32 then (5 * i + 1) % 16
    else if i < 48 then (3 * i + 5) % 16
    else (7 * i) % 16
  let F2 := (F + st.a + md5K.getD i 0 + M.getD g 0) % M32
  ⟨st.d, (st.b + rotl32 F2 (md5S.getD i 0)) % M32, st.b, st.c⟩

/-- Process one 64-byte block. -/
def md5Block (st : MD5State) (block : List Nat) : MD5State :=
  let M := md5Words block
  let r := (List.range 64).foldl (md5Step M) st
  ⟨(st.a + r.a) % M32, (st.b + r.b) % M32, (st.c + r.c) % M32, (st.d + r.d) % M32⟩

/-- Lowercase hex digit. -/
def hexLower (n : Nat) : Char :=
  if n < 10 then Char.ofNat ('0'.toNat + n) else Char.ofNat ('a'.toNat + n - 10)

/-- Two lowercase hex digits of a byte. -/
def byteHex (b : Nat) : List Char := [hexLower (b / 16), hexLower (b % 16)]

/-- `hashlib.md5(s.encode("utf-8")).hexdigest()`. -/
def md5Hex (s : String) : String :=
  let st := (chunks64 (md5Pad (utf8Bytes s))).foldl md5Block
    ⟨0x67452301, 0xefcdab89, 0x98badcfe, 0x10325476⟩
  String.mk (((leBytes 4 st.a ++ leBytes 4 st.b ++ leBytes 4 st.c ++ leBytes 4 st.d).map
    byteHex).flatten)

/-! ## Path helpers (`os.path`, `pathlib`) -/

/-- `os.path.basename`: everything after the last `/`. -/
def osBasename (s : String) : String :=
  (pySplitChar s '/').getLastD ""

/-- Index of the last occurrence of `c`. -/
def lastIndexOf (l : List Char) (c : Char) : Option Nat :=
  l.enum.foldl (fun acc e => if e.2 = c then some e.1 else acc) none

/-- `os.path.splitext(p)[0]` (POSIX): split at the last dot of the final
component, unless every character before it in that component is a dot. -/
def splitextBase (p : String) : String :=
  let l := p.data
  match lastIndexOf l '.' with
  | none => p
  | some di =>
    let start := match lastIndexOf l '/' with | some si => si + 1 | none => 0
    if ((match lastIndexOf l '/' with | some si => decide (si < di) | none => true)
        && ((l.drop start).take (di - start)).any (fun c => c ≠ '.')) then
      (l.take di).asString
    else p

/-- `pathlib.PurePath(path).stem`: the final component without its suffix;
a suffix exists only when the last dot is neither first nor last. -/
def pathStem (path : String) : String :=
  let name := osBasename path
  match lastIndexOf name.data '.' with
  | some i => if 0 < i ∧ i < name.length - 1 then (name.data.take i).asString else name
  | none => name

/-! ## JSON values and `json.dump(..., ensure_ascii=False, indent=2)` -/

/-- JSON values as `json.load` produces them. Objects keep key order
(CPython dicts are insertion-ordered); keys are unique in anything
`json.load` returns (later duplicates overwrite earlier ones at parse
time). Numbers are modelled as integers — the schedule data carries only
strings, arrays and objects. -/
inductive Json where
  | null
  | bool (b : Bool)
  | num (n : Int)
  | str (s : String)
  | arr (xs : List Json)
  | obj (kvs : List (String × Json))

/-- Python truthiness of a JSON value (`if item.get("show_logo"):`). -/
def jsonTruthy : Json → Bool
  | .null => false
  | .bool b => b
  | .num n => n != 0
  | .str s => !(s == "")
  | .arr xs => !xs.isEmpty
  | .obj kvs => !kvs.isEmpty

/-- Python `d.get(k)` on an object's pair list. -/
def objGet (kvs : List (String × Json)) (k : String) : Option Json :=
  (kvs.find? (fun e => e.1 == k)).map (fun e => e.2)

/-- Python `d[k] = v`: replace in place when the key exists (keeping its
position), append otherwise. -/
def objSet (kvs : List (String × Json)) (k : String) (v : Json) : List (String × Json) :=
  if kvs.any (fun e => e.1 == k) then
    kvs.map (fun e => if e.1 == k then (k, v) else e)
  else kvs ++ [(k, v)]

/-- Four lowercase hex digits. -/
def hex4 (n : Nat) : List Char :=
  [hexLower (n / 4096 % 16), hexLower (n / 256 % 16), hexLower (n / 16 % 16), hexLower (n % 16)]

/-- `json.encoder` string escaping with `ensure_ascii=False`: quote,
backslash and control characters escaped, everything else literal. -/
def jsonEscChar (c : Char) : List Char :=
  if c = '"' then ['\\', '"']
  else if c = '\\' then ['\\', '\\']
  else if c = '\n' then ['\\', 'n']
  else if c = '\t' then ['\\', 't']
  else if c = '\r' then ['\\', 'r']
  else if c = '\x08' then ['\\', 'b']
  else if c = '\x0c' then ['\\', 'f']
  else if c.toNat < 32 then '\\' :: 'u' :: hex4 c.toNat
  else [c]

/-- A JSON string literal. -/
def jsonStr (s : String) : String :=
  "\"" ++ String.mk ((s.data.map jsonEscChar).flatten) ++ "\""

/-- `indent * level` spaces. -/
def indentStr (lvl : Nat) : String := String.mk (List.replicate (2 * lvl) ' ')

mutual
/-- `json.dumps(j, ensure_ascii=False, indent=2)` at nesting level `lvl`
(the separators with an indent are `,` + newline and `: `; empty
containers print without newlines). -/
def pyJsonDumps (j : Json) (lvl : Nat) : String :=
  match j with
  | .null => "null"
  | .bool b => if b then "true" else "false"
  | .num n => toString n
  | .str s => jsonStr s
  | .arr [] => "[]"
  | .arr (x :: xs) =>
    "[\n" ++ String.intercalate ",\n"
      ((dumpsItems (x :: xs) (lvl + 1)).map (fun it => indentStr (lvl + 1) ++ it))
      ++ "\n" ++ indentStr lvl ++ "]"
  | .obj [] => "\x7b\x7d"
  | .obj (kv :: kvs) =>
    "\x7b\n" ++ String.intercalate ",\n"
      ((dumpsPairs (kv :: kvs) (lvl + 1)).map (fun it => indentStr (lvl + 1) ++ it))
      ++ "\n" ++ indentStr lvl ++ "\x7d"

/-- Serialized array items. -/
def dumpsItems (xs : List Json) (lvl : Nat) : List String :=
  match xs with
  | [] => []
  | x :: t => pyJsonDumps x lvl :: dumpsItems t lvl

/-- Serialized object entries (`"key": value`). -/
def dumpsPairs (kvs : List (String × Json)) (lvl : Nat) : List String :=
  match kvs with
  | [] => []
  | (k, v) :: t => (jsonStr k ++ ": " ++ pyJsonDumps v lvl) :: dumpsPairs t lvl
end

/-! ## The pipeline's derived names and paths
(`download_images_parallel.py`) -/

/-- `slug_from_filename` (source lines 71–72): lowercased stem, spaces to
hyphens. -/
def slug_from_filename (jsonPath : String) : String :=
  replaceChar (asciiLower (pathStem jsonPath)) ' ' '-' 

/-- The day classifier (source line 195): `"today"` iff the lowercased
path contains it, else `"tomorrow"`. -/
def dayFor (jsonPath : String) : String :=
  if strContains (asciiLower jsonPath) "today" then "today" else "tomorrow"

/-- `url_basename` (source lines 115–120). The function has no exception
handler, so a `urlparse` failure propagates to the caller. -/
def url_basename (url : String) : Except Unit String := do
  let p ← urlparse url
  let name := osBasename (unquote p.path)
  if name = "" then pure (md5Hex url ++ ".img") else pure name

/-- `unique_filename_for` (source lines 123–126):
`{base}_{md5(url)[:10]}.webp` with spaces replaced by underscores. -/
def unique_filename_for (url basename : String) : String :=
  replaceChar (splitextBase basename ++ "_" ++ (md5Hex url).take 10 ++ ".webp") ' ' '_' 

/-- `OUTPUT_BASE` (source line 37), as `str(Path("./downloaded-images"))`
renders it. -/
def OUTPUT_BASE : String := "downloaded-images"

/-- The public URL prefix, `WP_PREFIX` in the source (line 39). -/
def wpPrefixStr : String := "https://intvschedule.com/wp-content/uploads/downloaded-images"

/-- The Task Planner's filename for a normalized URL (source lines
219–220): `unique_filename_for(norm_url, url_basename(norm_url))`. -/
def filenameFor (n : String) : Except Unit String := do
  let b ← url_basename n
  pure (unique_filename_for n b)

/-- The local artifact path for a normalized URL (source lines 222–224):
`OUTPUT_BASE / slug / day / filename`. -/
def localPathFor (slug day n : String) : Except Unit String := do
  let f ← filenameFor n
  pure (OUTPUT_BASE ++ "/" ++ slug ++ "/" ++ day ++ "/" ++ f)

/-! ## The Task Planner and Schedule Rewriter (`process_json_file`,
source lines 184–264) -/

/-- The `to_update` extraction (source lines 201–204) over the enumerated
items: the `(index, show_logo)` pairs of the dict items whose `show_logo`
is truthy. A truthy non-string `show_logo` makes the real script raise an
uncaught `TypeError` later (inside `url_basename`, which has no handler),
killing the run before any download or write; that crash is modelled as
`.error ()` here. -/
def extractFrom : List (Nat × Json) → Except Unit (List (Nat × String))
  | [] => pure []
  | e :: t =>
    match e.2 with
    | .obj kvs =>
      match objGet kvs "show_logo" with
      | some v =>
        if jsonTruthy v then
          match v with
          | .str s =>
            match extractFrom t with
            | .ok rest => .ok ((e.1, s) :: rest)
            | .error er => .error er
          | _ => throw ()
        else extractFrom t
      | none => extractFrom t
    | _ => extractFrom t

/-- `to_update` for a schedule (source lines 201–204). -/
def extractLogos (schedule : List Json) : Except Unit (List (Nat × String)) :=
  extractFrom schedule.enum

/-- One step of the `norm_entries` grouping: `norm_entries.setdefault(norm,
[]).append(idx)` (source line 215). -/
def groupStep (tw : Nat) (acc : List (String × List Nat)) (iu : Nat × String) :
    List (String × List Nat) :=
  let n := parse_and_adjust_size iu.2 tw
  if acc.any (fun e => e.1 == n) then
    acc.map (fun e => if e.1 == n then (e.1, e.2 ++ [iu.1]) else e)
  else acc ++ [(n, [iu.1])]

/-- The `norm_entries` grouping (source lines 209–215): group item indices
by normalized URL, keys in first-occurrence order. -/
def groupByNorm (tw : Nat) (ups : List (Nat × String)) : List (String × List Nat) :=
  ups.foldl (groupStep tw) []

/-- The planning loop (source lines 217–233) over the `(norm_url,
local_path)` pairs, in `norm_entries` order: a pair whose path already
exists goes straight into `per_file_downloaded` (the result index), the
rest become fetch tasks. The `norm_url in per_file_downloaded` guard of
line 226 is kept although dict keys are already distinct. -/
def planTasks (existing : String → Bool) (pairs : List (String × String)) :
    List (String × String) × List (String × String) :=
  pairs.foldl (fun acc np =>
    if acc.1.any (fun e => e.1 == np.1) then acc
    else if existing np.2 then (acc.1 ++ [np], acc.2)
    else (acc.1, acc.2 ++ [np])) ([], [])

/-- Whether a path exists once the downloads ran (source line 247): it
existed before, or some task targeting it fetched successfully. -/
def existsAfter (existing fetchOk : String → Bool) (tasks : List (String × String))
    (p : String) : Bool :=
  existing p || tasks.any (fun t => t.2 == p && fetchOk t.1)

/-- The post-download bookkeeping (source lines 246–250): each task whose
path now exists joins the result index, the rest produce a warning. -/
def afterDownload (existing fetchOk : String → Bool) (tasks : List (String × String))
    (resolved : List (String × String)) : List (String × String) × List String :=
  tasks.foldl (fun acc np =>
    if existsAfter existing fetchOk tasks np.2 then (acc.1 ++ [np], acc.2)
    else (acc.1, acc.2 ++ ["Missing after download: " ++ np.1])) (resolved, [])

/-- Python `d.get(k)` on the result index. -/
def lookupA (l : List (String × String)) (k : String) : Option String :=
  (l.find? (fun e => e.1 == k)).map (fun e => e.2)

/-- Replace the list element at index `i` (`data["schedule"][idx] = …`;
the index is always in range in the pipeline). -/
def setListAt (xs : List Json) (i : Nat) (f : Json → Json) : List Json :=
  match xs, i with
  | [], _ => []
  | x :: t, 0 => f x :: t
  | x :: t, n + 1 => x :: setListAt t n f

/-- `data["schedule"][idx]["show_logo"] = new_val` on one item. -/
def setShowLogo (v : String) : Json → Json
  | .obj kvs => .obj (objSet kvs "show_logo" (.str v))
  | j => j

/-- One step of the rewrite loop (source lines 252–261). The source reads
the normalized URL back from `orig_to_norm`; that dict maps each original
URL to `parse_and_adjust_size(url, TARGET_WIDTH)`, so the lookup is
replayed by recomputing the (deterministic) normalizer. -/
def rewriteOne (resolved : List (String × String)) (slug day : String) (tw : Nat)
    (acc : List Json × List String) (iu : Nat × String) : List Json × List String :=
  let n := parse_and_adjust_size iu.2 tw
  match lookupA resolved n with
  | some loc =>
    (setListAt acc.1 iu.1
      (setShowLogo (wpPrefixStr ++ "/" ++ slug ++ "/" ++ day ++ "/" ++ osBasename loc)),
     acc.2)
  | none => (acc.1, acc.2 ++ ["Failed image for " ++ iu.2])

/-- The observable outcome of `process_json_file` on one schedule file:
the fetch tasks it ran (each one network fetch), the object it wrote back
(`none` when it returned without writing), and its warnings. -/
structure RunResult where
  tasks : List (String × String)
  output : Option (List (String × Json))
  warnings : List String

/-- The planning loop's per-key path computation (source lines 218–224),
over the grouped keys in order; a `url_basename` exception kills the run. -/
def mapPathPairs (slug day : String) : List String → Except Unit (List (String × String))
  | [] => .ok []
  | n :: t =>
    match localPathFor slug day n with
    | .ok p =>
      match mapPathPairs slug day t with
      | .ok rest => .ok ((n, p) :: rest)
      | .error er => .error er
    | .error er => .error er

/-- `process_json_file` (source lines 184–264), as a function of the
pre-existing files (`existing`), the per-task fetch outcomes (`fetchOk`),
the file's path and its parsed JSON object. Directory creation and log
output are not tracked; `.error ()` is the uncaught crash of
`extractLogos`/`url_basename` described there (nothing fetched, nothing
written). The planning loop's `basename`/`filename` computation is hoisted
into `localPathFor` over the grouped keys, in the same order. -/
def processFile (existing fetchOk : String → Bool) (jsonPath : String)
    (data : List (String × Json)) : Except Unit RunResult :=
  let slug := slug_from_filename jsonPath
  let day := dayFor jsonPath
  match (objGet data "schedule").getD (.arr []) with
  | .arr schedule =>
    match extractLogos schedule with
    | .error er => .error er
    | .ok ups =>
      if ups.isEmpty then .ok ⟨[], none, []⟩
      else
        match mapPathPairs slug day ((groupByNorm TARGET_WIDTH ups).map (fun e => e.1)) with
        | .error er => .error er
        | .ok pairs =>
          let planned := planTasks existing pairs
          let tasks := planned.2
          let done := afterDownload existing fetchOk tasks planned.1
          let rew := ups.foldl (rewriteOne done.1 slug day TARGET_WIDTH) (schedule, done.2)
          .ok ⟨tasks, some (objSet data "schedule" (.arr rew.1)), rew.2⟩
  | _ => .ok ⟨[], none, []⟩

/-- The per-file ResultIndex (`per_file_downloaded`) after planning and
downloads, as a function of the planned pairs. -/
def resolvedIdx (ex fok : String → Bool) (pairs : List (String × String)) :
    List (String × String) :=
  (afterDownload ex fok (planTasks ex pairs).2 (planTasks ex pairs).1).1

/-- The post-download "missing" warnings, as a function of the planned
pairs. -/
def missingWarns (ex fok : String → Bool) (pairs : List (String × String)) : List String :=
  (afterDownload ex fok (planTasks ex pairs).2 (planTasks ex pairs).1).2

/-! ## The Fetch-Convert Worker (`download_and_convert_to_webp`,
source lines 137–181) -/

/-- PIL image modes (`Image.mode`) the decoder can produce. -/
inductive PilMode where
  | m1 | mL | mLA | mLa | mP | mPA | mRGB | mRGBA | mRGBa | mRGBX
  | mCMYK | mYCbCr | mI | mF | mHSV | mLAB
deriving DecidableEq, Repr

/-- The mode string PIL reports. -/
def modeStr : PilMode → String
  | .m1 => "1" | .mL => "L" | .mLA => "LA" | .mLa => "La" | .mP => "P" | .mPA => "PA"
  | .mRGB => "RGB" | .mRGBA => "RGBA" | .mRGBa => "RGBa" | .mRGBX => "RGBX"
  | .mCMYK => "CMYK" | .mYCbCr => "YCbCr" | .mI => "I" | .mF => "F"
  | .mHSV => "HSV" | .mLAB => "LAB"

/-- Whether a PIL mode carries an alpha channel (RGBA, RGBa, LA, La, PA —
PIL's documented alpha-bearing modes). -/
def modeHasAlpha : PilMode → Bool
  | .mRGBA | .mRGBa | .mLA | .mLa | .mPA => true
  | _ => false

/-- Number of channels (bands) of a PIL mode. -/
def modeChannels : PilMode → Nat
  | .m1 | .mL | .mP | .mI | .mF => 1
  | .mLA | .mLa | .mPA => 2
  | .mRGB | .mYCbCr | .mHSV | .mLAB => 3
  | .mRGBA | .mRGBa | .mRGBX | .mCMYK => 4

/-- A decoded image: its pixel size and mode. -/
structure PImage where
  width : Nat
  height : Nat
  mode : PilMode
deriving DecidableEq, Repr

/-- The HTTP outcome of `session.get` + `raise_for_status` for one task:
a body, a transport error, or a non-2xx final status. -/
inductive HttpOutcome where
  | ok (body : List Nat)
  | transportError
  | badStatus
deriving DecidableEq

/-- Filesystem events of one worker run: writing the temporary `.part`
sibling (`img.save(tmp)`), renaming it onto the final path
(`tmp.replace(save_path)`), unlinking it (`tmp.unlink(missing_ok=True)`). -/
inductive FsEv where
  | writeTmp
  | renameTmpToFinal
  | unlinkTmp
deriving DecidableEq

/-- Whether the temporary file exists after the events (it starts absent;
a rename moves it away). -/
def tmpExistsAfter (evs : List FsEv) : Bool :=
  evs.foldl (fun _ e =>
    match e with
    | .writeTmp => true
    | .renameTmpToFinal => false
    | .unlinkTmp => false) false

/-- Whether the final target path exists after the events, when it did not
exist before the run (only the rename creates it). -/
def finalExistsAfter (evs : List FsEv) : Bool :=
  evs.contains .renameTmpToFinal

/-- `Path.with_suffix(".part")` on the save path: the temporary sibling. -/
def withSuffixPart (p : String) : String :=
  let name := osBasename p
  let pre := (p.data.take (p.length - name.length)).asString
  match lastIndexOf name.data '.' with
  | some i => if 0 < i then pre ++ (name.data.take i).asString ++ ".part" else p ++ ".part"
  | none => p ++ ".part"

/-- The outcome of one worker run: its return value and the filesystem
events on the temporary/final paths, plus the image it encoded (if any). -/
structure WorkerRun where
  success : Bool
  events : List FsEv
  saved : Option PImage
deriving DecidableEq

/-- `download_and_convert_to_webp` (source lines 137–181), as a function
of the HTTP outcome and a decode oracle standing for `PIL.Image.open`
(`none` = decode raises). Control flow is the source's: transport/status
errors hit the outer handler, decode/convert errors the inner one, both
unlink the temporary file and return failure; success writes the image to
the temporary path and renames it onto the final path. The resize
`int((h / w) * new_w)` is modelled as exact rational truncation
`h * 250 / w` (natural division); `w = 0` raises `ZeroDivisionError` into
the inner handler. `img.save`/`tmp.replace` are modelled as succeeding. -/
def download_and_convert_to_webp (http : HttpOutcome)
    (decode : List Nat → Option PImage) (norm_url : String) : WorkerRun :=
  match http with
  | .transportError => ⟨false, [.unlinkTmp], none⟩
  | .badStatus => ⟨false, [.unlinkTmp], none⟩
  | .ok body =>
    match decode body with
    | none => ⟨false, [.unlinkTmp], none⟩
    | some img =>
      let resized : Option PImage :=
        if strContains norm_url "lock=" then some img
        else if img.width = 0 then none
        else some ⟨TARGET_WIDTH, img.height * TARGET_WIDTH / img.width, img.mode⟩
      match resized with
      | none => ⟨false, [.unlinkTmp], none⟩
      | some img1 =>
        let img2 : PImage :=
          if modeStr img1.mode = "RGBA" ∨ modeStr img1.mode = "P" then
            { img1 with mode := .mRGBA }
          else { img1 with mode := .mRGB }
        ⟨true, [.writeTmp, .renameTmpToFinal], some img2⟩

/-! ## The EPG scraper's per-channel file writes (`scrape_epg.py`,
source lines 40–46 and 219–241) -/

/-- Collapse runs of hyphens to one (`re.sub(r"-{2,}", "-", ...)`). -/
def collapseHyphens : List Char → List Char
  | [] => []
  | '-' :: '-' :: t => collapseHyphens ('-' :: t)
  | c :: t => c :: collapseHyphens t

/-- `slugify` (scrape_epg lines 40–46). The whitespace-run substitution
`re.sub(r"[\s]+", "-", ·)` is modelled per character; runs then collapse
in the `-{2,}` step, which sees exactly the same result because the
character-class filter in between never removes a hyphen. -/
def slugify (name : String) : String :=
  let s1 := (((name.data.dropWhile pyWhitespace).reverse.dropWhile pyWhitespace).reverse).map
    Char.toLower
  let s2 := s1.map (fun c => if pyWhitespace c then '-' else c)
  let s3 := s2.filter (fun c => ('a' ≤ c && c ≤ 'z') || ('0' ≤ c && c ≤ '9') || c == '-')
  let s4 := collapseHyphens s3
  let s5 := ((s4.dropWhile (fun c => c == '-')).reverse.dropWhile (fun c => c == '-')).reverse
  if s5.isEmpty then "channel" else s5.asString

/-- The payload written for one channel and day (scrape_epg lines
235–239). -/
def channelPayload (filtOriginal dateStr : String) (schedule : List Json) : Json :=
  .obj [("channel_name", .str filtOriginal), ("date", .str dateStr),
        ("schedule", .arr schedule)]

/-- The files `main`'s loop writes for one matched channel (scrape_epg
lines 224–241): nothing when both day schedules are empty, otherwise one
file for each of today and tomorrow — the tomorrow file is written even
when only today's schedule is non-empty. -/
def channelFiles (filtOriginal todayDateStr tomorrowDateStr : String)
    (schedToday schedTomorrow : List Json) : List (String × Json) :=
  if schedToday.isEmpty && schedTomorrow.isEmpty then []
  else
    [("today/" ++ slugify filtOriginal ++ ".json",
      channelPayload filtOriginal todayDateStr schedToday),
     ("tomorrow/" ++ slugify filtOriginal ++ ".json",
      channelPayload filtOriginal tomorrowDateStr schedTomorrow)]

/-! ## Concrete instances used by the witnesses and counterexamples -/

/-- A remote logo URL with no query (normalizes to itself). -/
def logoUrl : String := "http://h/logo.png"

/-- Its computed local artifact path for slug `chan`, day `today`
(`logo_{md5("http://h/logo.png")[:10]}.webp`). -/
def logoPath : String := "downloaded-images/chan/today/logo_77892f63d3.webp"

/-- Its public URL after a successful rewrite. -/
def logoPub : String :=
  "https://intvschedule.com/wp-content/uploads/downloaded-images/chan/today/logo_77892f63d3.webp"

/-- A schedule of two items referencing the same logo URL. -/
def twoItemSched : List Json :=
  [.obj [("show_logo", .str logoUrl)], .obj [("show_logo", .str logoUrl)]]

/-- The file object holding that schedule. -/
def twoItemData : List (String × Json) := [("schedule", .arr twoItemSched)]

/-- The object the pipeline writes back for `twoItemData` once the logo
resolves: both items point at the same public URL. -/
def twoItemOut : List (String × Json) :=
  [("schedule", .arr [.obj [("show_logo", .str logoPub)],
                      .obj [("show_logo", .str logoPub)]])]

/-- Two URLs that differ only in the order of their query parameters. -/
def qUrlA : String := "http://h/i.png?a=1&b=2"

/-- The same query parameters in the opposite order. -/
def qUrlB : String := "http://h/i.png?b=2&a=1"

/-- Artifact path computed for `qUrlA` (`i_{md5(qUrlA)[:10]}.webp`). -/
def qPathA : String := "downloaded-images/chan/today/i_0bd9589f85.webp"

/-- Artifact path computed for `qUrlB`. -/
def qPathB : String := "downloaded-images/chan/today/i_3944304b77.webp"

/-- A schedule of two items whose logo URLs differ only in parameter order. -/
def qSched : List Json :=
  [.obj [("show_logo", .str qUrlA)], .obj [("show_logo", .str qUrlB)]]

/-- The file object holding `qSched`. -/
def qData : List (String × Json) := [("schedule", .arr qSched)]

/-- What the pipeline writes back for `qData`: each item at its OWN
public URL (the two are not merged). -/
def qOut : List (String × Json) :=
  [("schedule", .arr
    [.obj [("show_logo", .str
      "https://intvschedule.com/wp-content/uploads/downloaded-images/chan/today/i_0bd9589f85.webp")],
     .obj [("show_logo", .str
      "https://intvschedule.com/wp-content/uploads/downloaded-images/chan/today/i_3944304b77.webp")]])]

/-- A logo URL whose fetch will succeed in the mixed scenario. -/
def goodUrl : String := "http://h/good.png"

/-- A logo URL whose fetch will fail in the mixed scenario. -/
def badUrl : String := "http://h/bad.png"

/-- Artifact path computed for `goodUrl`. -/
def goodPath : String := "downloaded-images/chan/today/good_25150613f6.webp"

/-- Artifact path computed for `badUrl`. -/
def badPath : String := "downloaded-images/chan/today/bad_5c9d2556bd.webp"

/-- The public URL of the successful fetch's artifact. -/
def goodPub : String :=
  "https://intvschedule.com/wp-content/uploads/downloaded-images/chan/today/good_25150613f6.webp"

/-- A schedule with one succeeding item (carrying an extra field) and one
failing item. -/
def mixSched : List Json :=
  [.obj [("show_logo", .str goodUrl), ("name", .str "A")],
   .obj [("show_logo", .str badUrl)]]

/-- The file object for the mixed scenario, with an extra top-level key. -/
def mixData : List (String × Json) :=
  [("extra", .str "keep"), ("schedule", .arr mixSched)]

/-- What the pipeline writes back: the extra key untouched, item 0
rewritten in place (its other field kept), item 1 byte-identical. -/
def mixOut : List (String × Json) :=
  [("extra", .str "keep"),
   ("schedule", .arr
     [.obj [("show_logo", .str goodPub), ("name", .str "A")],
      .obj [("show_logo", .str badUrl)]])]

/-! ## `pyRoundInt` agrees with the rational `pyRound` -/

lemma rat_floor_eq_intFloor (q : ℚ) : Rat.floor q = ⌊q⌋ := by
  rw [Rat.floor_def', Rat.floor_def]

lemma pyRound_div_pos (N : Int) (d : Nat) (hd : 0 < d) :
    pyRound ((N : ℚ) / (d : ℚ)) =
      (if 2 * (N % (d : Int)) < (d : Int) then N / (d : Int)
       else if (d : Int) < 2 * (N % (d : Int)) then N / (d : Int) + 1
       else if (N / (d : Int)) % 2 = 0 then N / (d : Int) else N / (d : Int) + 1) := by
  have hdq : (0 : ℚ) < (d : ℚ) := by exact_mod_cast hd
  have hfloor : Rat.floor ((N : ℚ) / (d : ℚ)) = N / (d : Int) := by
    rw [rat_floor_eq_intFloor]
    exact Rat.floor_intCast_div_natCast N d
  have hmod : ((N % (d : Int) : Int) : ℚ) = (N : ℚ) - ((N / (d : Int) : Int) : ℚ) * (d : ℚ) := by
    have h := Int.emod_add_ediv N (d : Int)
    have h2 : ((N % (d : Int) + (d : Int) * (N / (d : Int)) : Int) : ℚ) = ((N : Int) : ℚ) := by
      exact_mod_cast congrArg (fun z : Int => (z : ℚ)) h
    push_cast at h2 ⊢
    linarith
  have hfrac : (N : ℚ) / (d : ℚ) - ((N / (d : Int) : Int) : ℚ)
      = ((N % (d : Int) : Int) : ℚ) / (d : ℚ) := by
    rw [hmod]
    field_simp
    ring
  have hlt : ((N : ℚ) / (d : ℚ) - ((N / (d : Int) : Int) : ℚ) < 1/2)
      ↔ (2 * (N % (d : Int)) < (d : Int)) := by
    rw [hfrac, div_lt_div_iff₀ hdq (by norm_num : (0:ℚ) < 2), one_mul]
    constructor
    · intro h
      have h2 : (N % (d : Int)) * 2 < (d : Int) := by exact_mod_cast h
      omega
    · intro h
      have h2 : (N % (d : Int)) * 2 < (d : Int) := by omega
      exact_mod_cast h2
  have hgt : (1/2 < (N : ℚ) / (d : ℚ) - ((N / (d : Int) : Int) : ℚ))
      ↔ ((d : Int) < 2 * (N % (d : Int))) := by
    rw [hfrac, div_lt_div_iff₀ (by norm_num : (0:ℚ) < 2) hdq, one_mul]
    constructor
    · intro h
      have h2 : (d : Int) < (N % (d : Int)) * 2 := by exact_mod_cast h
      omega
    · intro h
      have h2 : (d : Int) < (N % (d : Int)) * 2 := by omega
      exact_mod_cast h2
  simp only [pyRound, hfloor]
  by_cases h1 : 2 * (N % (d : Int)) < (d : Int)
  · rw [if_pos (hlt.mpr h1), if_pos h1]
  · rw [if_neg (fun hc => h1 (hlt.mp hc)), if_neg h1]
    by_cases h2 : (d : Int) < 2 * (N % (d : Int))
    · rw [if_pos (hgt.mpr h2), if_pos h2]
    · rw [if_neg (fun hc => h2 (hgt.mp hc)), if_neg h2]

/-- The executable integer rounding used in `adjustedLockValue` computes
exactly CPython's `round` of the exact quotient. -/
lemma pyRound_intCast_div (N D : Int) (hD : D ≠ 0) :
    pyRound ((N : ℚ) / (D : ℚ)) = pyRoundInt N D := by
  rcases lt_or_gt_of_ne hD with hneg | hpos
  · have habs : ((D.natAbs : Nat) : Int) = -D := Int.ofNat_natAbs_of_nonpos (le_of_lt hneg)
    have hq : (N : ℚ) / (D : ℚ) = ((-N : Int) : ℚ) / ((D.natAbs : Nat) : ℚ) := by
      have hDq : ((D.natAbs : Nat) : ℚ) = -(D : ℚ) := by
        have h3 : (((D.natAbs : Nat) : Int) : ℚ) = ((-D : Int) : ℚ) := by rw [habs]
        rw [Int.cast_natCast, Int.cast_neg] at h3
        exact h3
      rw [hDq]
      push_cast
      rw [neg_div_neg_eq]
    rw [hq, pyRound_div_pos (-N) D.natAbs (Int.natAbs_pos.mpr hD)]
    simp only [pyRoundInt, if_pos hneg, habs]
  · have habs : ((D.natAbs : Nat) : Int) = D := Int.natAbs_of_nonneg (le_of_lt hpos)
    have hq : (N : ℚ) / (D : ℚ) = ((N : Int) : ℚ) / ((D.natAbs : Nat) : ℚ) := by
      have hDq : ((D.natAbs : Nat) : ℚ) = (D : ℚ) := by
        have h3 : (((D.natAbs : Nat) : Int) : ℚ) = ((D : Int) : ℚ) := by rw [habs]
        rw [Int.cast_natCast] at h3
        exact h3
      rw [hDq]
    rw [hq, pyRound_div_pos N D.natAbs (Int.natAbs_pos.mpr hD)]
    have hnneg : ¬(D < 0) := not_lt.mpr (le_of_lt hpos)
    simp only [pyRoundInt, if_neg hnneg, habs]

/-! ## Helper lemmas about the association-list operations -/

lemma any_key_eq_mem {α : Type} (l : List (String × α)) (k : String) :
    (l.any (fun e => e.1 == k)) = true ↔ k ∈ l.map Prod.fst := by
  simp [List.any_eq_true, List.mem_map]

lemma lookupA_eq_some_of_mem :
    ∀ (l : List (String × String)), (l.map Prod.fst).Nodup →
      ∀ k v, (k, v) ∈ l → lookupA l k = some v
  | [], _, k, v, hm => by simp at hm
  | e :: t, hnd, k, v, hm => by
    simp only [List.map_cons, List.nodup_cons] at hnd
    simp only [lookupA, List.find?]
    by_cases hk : e.1 = k
    · have : (e.1 == k) = true := by simp [hk]
      rw [this]
      rcases List.mem_cons.mp hm with h | h
      · simp [← h]
      · exact absurd (hk ▸ List.mem_map_of_mem Prod.fst h) hnd.1
    · have : (e.1 == k) = false := by simp [hk]
      rw [this]
      rcases List.mem_cons.mp hm with h | h
      · exact absurd (congrArg Prod.fst h.symm) hk
      · exact lookupA_eq_some_of_mem t hnd.2 k v h

lemma lookupA_eq_none_iff (l : List (String × String)) (k : String) :
    lookupA l k = none ↔ k ∉ l.map Prod.fst := by
  simp only [lookupA, Option.map_eq_none', List.find?_eq_none, List.mem_map]
  constructor
  · rintro h ⟨e, he, hk⟩
    exact absurd (by simp [hk]) (h e he)
  · rintro h e he hk
    exact h ⟨e, he, by simpa using hk⟩

lemma lookupA_isSome_of_mem (l : List (String × String)) (k : String)
    (h : k ∈ l.map Prod.fst) : (lookupA l k).isSome := by
  rcases Option.eq_none_or_eq_some (lookupA l k) with hn | ⟨v, hv⟩
  · exact absurd h ((lookupA_eq_none_iff l k).mp hn)
  · simp [hv]

/-! ## The planner characterization -/

lemma planTasks_aux (ex : String → Bool) :
    ∀ (pairs r0 t0 : List (String × String)),
      (∀ np ∈ pairs, np.1 ∉ r0.map Prod.fst) →
      (pairs.map Prod.fst).Nodup →
      pairs.foldl (fun acc np =>
        if acc.1.any (fun e => e.1 == np.1) then acc
        else if ex np.2 then (acc.1 ++ [np], acc.2)
        else (acc.1, acc.2 ++ [np])) (r0, t0)
      = (r0 ++ pairs.filter (fun np => ex np.2),
         t0 ++ pairs.filter (fun np => !ex np.2))
  | [], r0, t0, _, _ => by simp
  | np :: rest, r0, t0, hdis, hnd => by
    simp only [List.map_cons, List.nodup_cons] at hnd
    have hguard : (r0.any (fun e => e.1 == np.1)) = false := by
      rw [Bool.eq_false_iff]
      intro hc
      exact hdis np (List.mem_cons_self np rest) ((any_key_eq_mem r0 np.1).mp hc)
    simp only [List.foldl_cons, hguard, Bool.false_eq_true, if_false]
    by_cases hex : ex np.2
    · have hdis' : ∀ mp ∈ rest, mp.1 ∉ (r0 ++ [np]).map Prod.fst := by
        intro mp hmp
        simp only [List.map_append, List.mem_append, List.map_cons, List.map_nil,
          List.mem_cons, List.not_mem_nil]
        rintro (h | h | h)
        · exact hdis mp (List.mem_cons_of_mem np hmp) h
        · exact hnd.1 (h ▸ List.mem_map_of_mem Prod.fst hmp)
        · exact h
      rw [hex, if_pos rfl, planTasks_aux ex rest (r0 ++ [np]) t0 hdis' hnd.2]
      simp [hex, List.append_assoc]
    · have hex' : ex np.2 = false := Bool.eq_false_iff.mpr hex
      have hdis' : ∀ mp ∈ rest, mp.1 ∉ r0.map Prod.fst := by
        intro mp hmp; exact hdis mp (List.mem_cons_of_mem np hmp)
      rw [hex', if_neg Bool.false_ne_true, planTasks_aux ex rest r0 (t0 ++ [np]) hdis' hnd.2]
      simp [hex', List.append_assoc]

/-- The planning loop under distinct keys: pre-existing paths are recorded
at once, the rest become tasks, both in key order. -/
lemma planTasks_eq (ex : String → Bool) (pairs : List (String × String))
    (hnd : (pairs.map Prod.fst).Nodup) :
    planTasks ex pairs
      = (pairs.filter (fun np => ex np.2), pairs.filter (fun np => !ex np.2)) := by
  have := planTasks_aux ex pairs [] [] (by simp) hnd
  simpa [planTasks] using this

/-- A fold that appends each element to one of two sides, as
`afterDownload` does. -/
lemma foldl_partition {α : Type} (p : α → Bool) (m : α → String) :
    ∀ (l : List α) (r0 : List α) (w0 : List String),
      l.foldl (fun acc x => if p x then (acc.1 ++ [x], acc.2) else (acc.1, acc.2 ++ [m x]))
        (r0, w0)
      = (r0 ++ l.filter p, w0 ++ (l.filter (fun x => !p x)).map m)
  | [], r0, w0 => by simp
  | x :: rest, r0, w0 => by
    by_cases hp : p x
    · simp only [List.foldl_cons]
      rw [hp, if_pos rfl, foldl_partition p m rest (r0 ++ [x]) w0]
      simp [hp, List.append_assoc]
    · have hp' : p x = false := Bool.eq_false_iff.mpr hp
      simp only [List.foldl_cons]
      rw [hp', if_neg Bool.false_ne_true, foldl_partition p m rest r0 (w0 ++ [m x])]
      simp [hp', List.append_assoc]

/-- `afterDownload` under the partition lemma. -/
lemma afterDownload_eq (ex fok : String → Bool) (tasks resolved : List (String × String)) :
    afterDownload ex fok tasks resolved
      = (resolved ++ tasks.filter (fun np => existsAfter ex fok tasks np.2),
         (tasks.filter (fun np => !existsAfter ex fok tasks np.2)).map
           (fun np => "Missing after download: " ++ np.1)) := by
  have := foldl_partition (fun np : String × String => existsAfter ex fok tasks np.2)
    (fun np => "Missing after download: " ++ np.1) tasks resolved []
  simpa [afterDownload] using this

/-! ## `mapPathPairs` and `extractFrom` inversions -/

lemma mapPathPairs_ok (slug day : String) :
    ∀ (norms : List String) (pairs : List (String × String)),
      mapPathPairs slug day norms = .ok pairs →
      pairs.map Prod.fst = norms ∧ ∀ np ∈ pairs, localPathFor slug day np.1 = .ok np.2
  | [], pairs, h => by
    simp only [mapPathPairs, Except.ok.injEq] at h
    subst h; simp
  | n :: rest, pairs, h => by
    simp only [mapPathPairs] at h
    cases hp : localPathFor slug day n with
    | error er => rw [hp] at h; exact absurd h (by simp)
    | ok p =>
      rw [hp] at h
      cases hr : mapPathPairs slug day rest with
      | error er => rw [hr] at h; exact absurd h (by simp)
      | ok rest' =>
        rw [hr] at h
        have hpr := mapPathPairs_ok slug day rest rest' hr
        simp only [Except.ok.injEq] at h
        subst h
        refine ⟨by simp [hpr.1], ?_⟩
        intro np hnp
        rcases List.mem_cons.mp hnp with he | he
        · subst he; exact hp
        · exact hpr.2 np he

lemma extractFrom_keys_sublist :
    ∀ (l : List (Nat × Json)) (ups : List (Nat × String)),
      extractFrom l = .ok ups →
      (ups.map Prod.fst).Sublist (l.map Prod.fst)
  | [], ups, h => by
    simp only [extractFrom] at h
    cases h; simp
  | e :: t, ups, h => by
    have tail_case : extractFrom t = Except.ok ups →
        (ups.map Prod.fst).Sublist ((e :: t).map Prod.fst) := by
      intro ht
      refine (extractFrom_keys_sublist t ups ht).trans ?_
      simp only [List.map_cons]
      exact List.sublist_cons_self _ _
    simp only [extractFrom] at h
    split at h
    all_goals try exact tail_case h
    · -- the `.obj kvs` branch with a `show_logo` value
      split at h
      all_goals try exact tail_case h
      · split at h
        · -- truthy value
          split at h
          all_goals try exact absurd h (by simp)
          · -- a string: extract the tail run
            split at h
            · rename_i rest hrest
              simp only [Except.ok.injEq] at h
              subst h
              simp only [List.map_cons]
              exact (extractFrom_keys_sublist t rest hrest).cons₂ _
            · exact absurd h (by simp)
        · exact tail_case h

/-! ## Keys of the `norm_entries` grouping -/

lemma groupStep_keys (tw : Nat) (acc : List (String × List Nat)) (iu : Nat × String) :
    (groupStep tw acc iu).map Prod.fst
      = if parse_and_adjust_size iu.2 tw ∈ acc.map Prod.fst then acc.map Prod.fst
        else acc.map Prod.fst ++ [parse_and_adjust_size iu.2 tw] := by
  by_cases hm : parse_and_adjust_size iu.2 tw ∈ acc.map Prod.fst
  · have ha : (acc.any (fun e => e.1 == parse_and_adjust_size iu.2 tw)) = true :=
      (any_key_eq_mem acc _).mpr hm
    simp only [groupStep, ha, if_pos rfl, hm, if_true, List.map_map]
    apply List.map_congr_left
    intro e _
    by_cases he : e.1 == parse_and_adjust_size iu.2 tw <;> simp [he, Function.comp]
  · have ha : (acc.any (fun e => e.1 == parse_and_adjust_size iu.2 tw)) = false := by
      rw [Bool.eq_false_iff]
      intro hc; exact hm ((any_key_eq_mem acc _).mp hc)
    simp [groupStep, ha, hm]

lemma groupFold_keys_nodup (tw : Nat) :
    ∀ (ups : List (Nat × String)) (acc : List (String × List Nat)),
      ((acc.map Prod.fst).Nodup) →
      ((ups.foldl (groupStep tw) acc).map Prod.fst).Nodup
  | [], acc, h => by simpa using h
  | iu :: rest, acc, h => by
    simp only [List.foldl_cons]
    apply groupFold_keys_nodup tw rest
    rw [groupStep_keys]
    by_cases hm : parse_and_adjust_size iu.2 tw ∈ acc.map Prod.fst
    · simpa [hm] using h
    · simp [hm, h, List.Nodup.append, List.nodup_append]

lemma groupFold_keys_mono (tw : Nat) :
    ∀ (ups : List (Nat × String)) (acc : List (String × List Nat)) (n : String),
      n ∈ acc.map Prod.fst → n ∈ (ups.foldl (groupStep tw) acc).map Prod.fst
  | [], acc, n, h => by simpa using h
  | iu :: rest, acc, n, h => by
    simp only [List.foldl_cons]
    apply groupFold_keys_mono tw rest
    rw [groupStep_keys]
    by_cases hm : parse_and_adjust_size iu.2 tw ∈ acc.map Prod.fst <;> simp [hm, h]

lemma mem_groupFold_keys (tw : Nat) :
    ∀ (ups : List (Nat × String)) (acc : List (String × List Nat)) (iu : Nat × String),
      iu ∈ ups →
      parse_and_adjust_size iu.2 tw ∈ (ups.foldl (groupStep tw) acc).map Prod.fst
  | [], _, iu, h => by simp at h
  | ju :: rest, acc, iu, h => by
    simp only [List.foldl_cons]
    rcases List.mem_cons.mp h with he | he
    · subst he
      apply groupFold_keys_mono
      rw [groupStep_keys]
      by_cases hm : parse_and_adjust_size iu.2 tw ∈ acc.map Prod.fst <;> simp [hm]
    · exact mem_groupFold_keys tw rest (groupStep tw acc ju) iu he

/-- Membership of a normalized URL among the grouped keys. -/
lemma mem_groupByNorm_keys (tw : Nat) (ups : List (Nat × String)) (iu : Nat × String)
    (h : iu ∈ ups) :
    parse_and_adjust_size iu.2 tw ∈ (groupByNorm tw ups).map Prod.fst :=
  mem_groupFold_keys tw ups [] iu h

/-- The grouped keys are distinct. -/
lemma groupByNorm_keys_nodup (tw : Nat) (ups : List (Nat × String)) :
    ((groupByNorm tw ups).map Prod.fst).Nodup :=
  groupFold_keys_nodup tw ups [] (by simp)

/-! ## `objGet` / `objSet` and `setListAt` -/

lemma objGet_mapfix_self (k : String) (v : Json) :
    ∀ (kvs : List (String × Json)), (kvs.any (fun e => e.1 == k)) = true →
      objGet (kvs.map (fun e => if e.1 == k then (k, v) else e)) k = some v
  | [], h => by simp at h
  | e :: t, h => by
    by_cases he : (e.1 == k) = true
    · simp [objGet, List.find?, he]
    · have he' : (e.1 == k) = false := Bool.eq_false_iff.mpr he
      have ht : (t.any (fun e => e.1 == k)) = true := by
        simpa [List.any_cons, he'] using h
      simpa [objGet, List.find?, he'] using objGet_mapfix_self k v t ht

lemma objGet_append_single_self (k : String) (v : Json) :
    ∀ (kvs : List (String × Json)), (kvs.any (fun e => e.1 == k)) = false →
      objGet (kvs ++ [(k, v)]) k = some v
  | [], _ => by simp [objGet, List.find?]
  | e :: t, h => by
    have he : (e.1 == k) = false := by
      by_contra hc
      simp [List.any_cons, Bool.of_not_eq_false hc] at h
    have ht : (t.any (fun e => e.1 == k)) = false := by
      simpa [List.any_cons, he] using h
    simpa [objGet, List.find?, he] using objGet_append_single_self k v t ht

lemma objGet_mapfix_ne (k k' : String) (v : Json) (hk : k' ≠ k) :
    ∀ (kvs : List (String × Json)),
      objGet (kvs.map (fun e => if e.1 == k then (k, v) else e)) k' = objGet kvs k'
  | [] => by simp
  | e :: t => by
    by_cases he : (e.1 == k) = true
    · have hek : e.1 = k := by simpa using he
      have h1 : (k == k') = false := by
        simp only [beq_eq_false_iff_ne, ne_eq]
        exact fun h => hk h.symm
      have h2 : (e.1 == k') = false := by
        rw [hek]; exact h1
      simpa [objGet, List.find?, he, h1, h2] using objGet_mapfix_ne k k' v hk t
    · have he' : (e.1 == k) = false := Bool.eq_false_iff.mpr he
      by_cases hg : (e.1 == k') = true
      · simp [objGet, List.find?, he', hg]
      · have hg' : (e.1 == k') = false := Bool.eq_false_iff.mpr hg
        simpa [objGet, List.find?, he', hg'] using objGet_mapfix_ne k k' v hk t

lemma objGet_append_single_ne (k k' : String) (v : Json) (hk : k' ≠ k) :
    ∀ (kvs : List (String × Json)),
      objGet (kvs ++ [(k, v)]) k' = objGet kvs k'
  | [] => by
    have h1 : (k == k') = false := by
      simp only [beq_eq_false_iff_ne, ne_eq]
      exact fun h => hk h.symm
    simp [objGet, List.find?, h1]
  | e :: t => by
    by_cases hg : (e.1 == k') = true
    · simp [objGet, List.find?, hg]
    · have hg' : (e.1 == k') = false := Bool.eq_false_iff.mpr hg
      simpa [objGet, List.find?, hg'] using objGet_append_single_ne k k' v hk t

/-- Setting a key yields that key's new value. -/
lemma objGet_objSet_self (kvs : List (String × Json)) (k : String) (v : Json) :
    objGet (objSet kvs k v) k = some v := by
  by_cases ha : (kvs.any (fun e => e.1 == k)) = true
  · simp only [objSet, ha, if_pos rfl]
    exact objGet_mapfix_self k v kvs ha
  · have ha' : (kvs.any (fun e => e.1 == k)) = false := Bool.eq_false_iff.mpr ha
    simp only [objSet, ha', if_neg Bool.false_ne_true]
    exact objGet_append_single_self k v kvs ha'

/-- Setting a key leaves every other key's value unchanged. -/
lemma objGet_objSet_ne (kvs : List (String × Json)) (k k' : String) (v : Json)
    (hk : k' ≠ k) : objGet (objSet kvs k v) k' = objGet kvs k' := by
  by_cases ha : (kvs.any (fun e => e.1 == k)) = true
  · simp only [objSet, ha, if_pos rfl]
    exact objGet_mapfix_ne k k' v hk kvs
  · have ha' : (kvs.any (fun e => e.1 == k)) = false := Bool.eq_false_iff.mpr ha
    simp only [objSet, ha', if_neg Bool.false_ne_true]
    exact objGet_append_single_ne k k' v hk kvs

lemma setListAt_getElem? :
    ∀ (xs : List Json) (i j : Nat) (f : Json → Json),
      (setListAt xs i f)[j]? = if i = j then (xs[j]?).map f else xs[j]?
  | [], i, j, f => by simp [setListAt]
  | x :: t, 0, 0, f => by simp [setListAt]
  | x :: t, 0, j + 1, f => by simp [setListAt]
  | x :: t, i + 1, 0, f => by simp [setListAt]
  | x :: t, i + 1, j + 1, f => by
    simp only [setListAt, List.getElem?_cons_succ]
    rw [setListAt_getElem? t i j f]
    by_cases hij : i = j <;> simp [hij]

lemma setListAt_length :
    ∀ (xs : List Json) (i : Nat) (f : Json → Json), (setListAt xs i f).length = xs.length
  | [], _, _ => rfl
  | x :: t, 0, f => by simp [setListAt]
  | x :: t, i + 1, f => by simp [setListAt, setListAt_length t i f]

/-! ## The rewrite loop -/

lemma rewrite_fold_warns (resolved : List (String × String)) (slug day : String) (tw : Nat) :
    ∀ (ups : List (Nat × String)) (sched : List Json) (w0 : List String),
      (ups.foldl (rewriteOne resolved slug day tw) (sched, w0)).2
        = w0 ++ (ups.filter (fun iu =>
            (lookupA resolved (parse_and_adjust_size iu.2 tw)).isNone)).map
              (fun iu => "Failed image for " ++ iu.2)
  | [], sched, w0 => by simp
  | iu :: rest, sched, w0 => by
    simp only [List.foldl_cons]
    cases hl : lookupA resolved (parse_and_adjust_size iu.2 tw) with
    | some loc =>
      simp only [rewriteOne, hl]
      rw [rewrite_fold_warns resolved slug day tw rest _ w0]
      simp [List.filter_cons, hl]
    | none =>
      simp only [rewriteOne, hl]
      rw [rewrite_fold_warns resolved slug day tw rest _ (w0 ++ ["Failed image for " ++ iu.2])]
      simp [List.filter_cons, hl, List.append_assoc]

lemma rewrite_fold_sched_length (resolved : List (String × String)) (slug day : String)
    (tw : Nat) :
    ∀ (ups : List (Nat × String)) (sched : List Json) (w0 : List String),
      ((ups.foldl (rewriteOne resolved slug day tw) (sched, w0)).1).length = sched.length
  | [], sched, w0 => by simp
  | iu :: rest, sched, w0 => by
    simp only [List.foldl_cons]
    cases hl : lookupA resolved (parse_and_adjust_size iu.2 tw) with
    | some loc =>
      simp only [rewriteOne, hl]
      rw [rewrite_fold_sched_length resolved slug day tw rest _ _]
      exact setListAt_length sched iu.1 _
    | none =>
      simp only [rewriteOne, hl]
      exact rewrite_fold_sched_length resolved slug day tw rest sched _

lemma rewrite_fold_sched_untouched (resolved : List (String × String)) (slug day : String)
    (tw : Nat) :
    ∀ (ups : List (Nat × String)) (sched : List Json) (w0 : List String) (j : Nat),
      (∀ u, (j, u) ∉ ups) →
      ((ups.foldl (rewriteOne resolved slug day tw) (sched, w0)).1)[j]? = sched[j]?
  | [], sched, w0, j, _ => by simp
  | iu :: rest, sched, w0, j, hj => by
    simp only [List.foldl_cons]
    have hji : iu.1 ≠ j := by
      intro hc
      exact hj iu.2 (hc ▸ List.mem_cons_self iu rest)
    have hrest : ∀ u, (j, u) ∉ rest := fun u hu => hj u (List.mem_cons_of_mem iu hu)
    cases hl : lookupA resolved (parse_and_adjust_size iu.2 tw) with
    | some loc =>
      simp only [rewriteOne, hl]
      rw [rewrite_fold_sched_untouched resolved slug day tw rest _ _ j hrest]
      rw [setListAt_getElem?]
      simp [hji]
    | none =>
      simp only [rewriteOne, hl]
      exact rewrite_fold_sched_untouched resolved slug day tw rest sched _ j hrest

lemma rewrite_fold_sched_mem (resolved : List (String × String)) (slug day : String)
    (tw : Nat) :
    ∀ (ups : List (Nat × String)) (sched : List Json) (w0 : List String) (j : Nat)
      (u : String),
      (j, u) ∈ ups → (ups.map Prod.fst).Nodup →
      ((ups.foldl (rewriteOne resolved slug day tw) (sched, w0)).1)[j]?
        = match lookupA resolved (parse_and_adjust_size u tw) with
          | some loc => (sched[j]?).map (setShowLogo
              (wpPrefixStr ++ "/" ++ slug ++ "/" ++ day ++ "/" ++ osBasename loc))
          | none => sched[j]?
  | [], sched, w0, j, u, hm, _ => by simp at hm
  | iu :: rest, sched, w0, j, u, hm, hnd => by
    simp only [List.map_cons, List.nodup_cons] at hnd
    simp only [List.foldl_cons]
    rcases List.mem_cons.mp hm with he | he
    · have hiu : iu = (j, u) := he.symm
      subst hiu
      have hrest : ∀ u', (j, u') ∉ rest := by
        intro u' hu'
        exact hnd.1 (by simpa using List.mem_map_of_mem Prod.fst hu')
      cases hl : lookupA resolved (parse_and_adjust_size u tw) with
      | some loc =>
        simp only [rewriteOne, hl]
        rw [rewrite_fold_sched_untouched resolved slug day tw rest _ _ j hrest]
        rw [setListAt_getElem?]
        simp
      | none =>
        simp only [rewriteOne, hl]
        rw [rewrite_fold_sched_untouched resolved slug day tw rest _ _ j hrest]
    · have hji : iu.1 ≠ j := by
        intro hc
        exact hnd.1 (hc ▸ List.mem_map_of_mem Prod.fst he)
      cases hl : lookupA resolved (parse_and_adjust_size iu.2 tw) with
      | some loc =>
        simp only [rewriteOne, hl]
        rw [rewrite_fold_sched_mem resolved slug day tw rest _ _ j u he hnd.2]
        rw [setListAt_getElem?]
        simp [hji]
      | none =>
        simp only [rewriteOne, hl]
        exact rewrite_fold_sched_mem resolved slug day tw rest sched _ j u he hnd.2

/-! ## Inverting a successful `processFile` run -/

lemma processFile_components
    (ex fok : String → Bool) (jsonPath : String) (data : List (String × Json))
    (sched : List Json) (ups : List (Nat × String)) (pairs : List (String × String))
    (r : RunResult)
    (hsched : (objGet data "schedule").getD (.arr []) = .arr sched)
    (hups : extractLogos sched = .ok ups)
    (hne : ups.isEmpty = false)
    (hpairs : mapPathPairs (slug_from_filename jsonPath) (dayFor jsonPath)
        ((groupByNorm TARGET_WIDTH ups).map (fun e => e.1)) = .ok pairs)
    (hrun : processFile ex fok jsonPath data = .ok r) :
    r.tasks = (planTasks ex pairs).2
    ∧ r.output = some (objSet data "schedule" (.arr (ups.foldl
        (rewriteOne (resolvedIdx ex fok pairs) (slug_from_filename jsonPath)
          (dayFor jsonPath) TARGET_WIDTH)
        (sched, missingWarns ex fok pairs)).1))
    ∧ r.warnings = (ups.foldl
        (rewriteOne (resolvedIdx ex fok pairs) (slug_from_filename jsonPath)
          (dayFor jsonPath) TARGET_WIDTH)
        (sched, missingWarns ex fok pairs)).2 := by
  simp only [processFile] at hrun
  rw [hsched] at hrun
  simp only [hups, hne, Bool.false_eq_true, if_false, hpairs] at hrun
  simp only [Except.ok.injEq] at hrun
  subst hrun
  exact ⟨rfl, rfl, rfl⟩

/-! ## The ResultIndex under distinct keys -/

lemma resolvedIdx_eq (ex fok : String → Bool) (pairs : List (String × String))
    (hnd : (pairs.map Prod.fst).Nodup) :
    resolvedIdx ex fok pairs
      = pairs.filter (fun np => ex np.2)
        ++ (pairs.filter (fun np => !ex np.2)).filter
            (fun np => existsAfter ex fok (pairs.filter (fun np => !ex np.2)) np.2) := by
  simp [resolvedIdx, planTasks_eq ex pairs hnd, afterDownload_eq]

lemma missingWarns_eq (ex fok : String → Bool) (pairs : List (String × String))
    (hnd : (pairs.map Prod.fst).Nodup) :
    missingWarns ex fok pairs
      = ((pairs.filter (fun np => !ex np.2)).filter
          (fun np => !existsAfter ex fok (pairs.filter (fun np => !ex np.2)) np.2)).map
            (fun np => "Missing after download: " ++ np.1) := by
  simp [missingWarns, planTasks_eq ex pairs hnd, afterDownload_eq]

lemma key_inj_of_nodup {β : Type} :
    ∀ (l : List (String × β)), (l.map Prod.fst).Nodup →
      ∀ a ∈ l, ∀ b ∈ l, a.1 = b.1 → a = b
  | [], _, a, ha, _, _, _ => by simp at ha
  | e :: t, hnd, a, ha, b, hb, hab => by
    simp only [List.map_cons, List.nodup_cons] at hnd
    rcases List.mem_cons.mp ha with h1 | h1 <;> rcases List.mem_cons.mp hb with h2 | h2
    · rw [h1, h2]
    · exact absurd (h1 ▸ hab ▸ List.mem_map_of_mem Prod.fst h2) hnd.1
    · exact absurd (h2 ▸ hab.symm ▸ List.mem_map_of_mem Prod.fst h1) hnd.1
    · exact key_inj_of_nodup t hnd.2 a h1 b h2 hab

lemma resolvedIdx_sub (ex fok : String → Bool) (pairs : List (String × String))
    (hnd : (pairs.map Prod.fst).Nodup) :
    ∀ np ∈ resolvedIdx ex fok pairs, np ∈ pairs := by
  intro np hnp
  rw [resolvedIdx_eq ex fok pairs hnd] at hnp
  rcases List.mem_append.mp hnp with h | h
  · exact List.mem_of_mem_filter h
  · exact List.mem_of_mem_filter (List.mem_of_mem_filter h)

lemma resolvedIdx_keys_nodup (ex fok : String → Bool) (pairs : List (String × String))
    (hnd : (pairs.map Prod.fst).Nodup) :
    ((resolvedIdx ex fok pairs).map Prod.fst).Nodup := by
  rw [resolvedIdx_eq ex fok pairs hnd]
  rw [List.map_append, List.nodup_append]
  refine ⟨((List.filter_sublist _).map Prod.fst).nodup hnd,
    (((List.filter_sublist _).trans (List.filter_sublist _)).map Prod.fst).nodup hnd, ?_⟩
  intro k h1 h2
  rcases List.mem_map.mp h1 with ⟨a, ha, hak⟩
  rcases List.mem_map.mp h2 with ⟨b, hb, hbk⟩
  have hpa : a ∈ pairs ∧ ex a.2 = true := by
    have := List.mem_filter.mp ha
    exact ⟨this.1, by simpa using this.2⟩
  have hpb : b ∈ pairs ∧ ex b.2 = false := by
    have hb1 := List.mem_of_mem_filter hb
    have hb2 := List.mem_filter.mp hb1
    exact ⟨hb2.1, by simpa using hb2.2⟩
  have hab : a = b := by
    apply key_inj_of_nodup pairs hnd a hpa.1 b hpb.1
    rw [hak, hbk]
  rw [hab, hpb.2] at hpa
  exact absurd hpa.2 (by simp)

lemma lookupA_resolvedIdx_all (ex fok : String → Bool) (pairs : List (String × String))
    (hnd : (pairs.map Prod.fst).Nodup)
    (hall : ∀ np ∈ (planTasks ex pairs).2, fok np.1 = true) :
    ∀ np ∈ pairs, lookupA (resolvedIdx ex fok pairs) np.1 = some np.2 := by
  intro np hnp
  apply lookupA_eq_some_of_mem _ (resolvedIdx_keys_nodup ex fok pairs hnd)
  rw [resolvedIdx_eq ex fok pairs hnd]
  by_cases hex : ex np.2 = true
  · exact List.mem_append.mpr (Or.inl (List.mem_filter.mpr ⟨hnp, by simp [hex]⟩))
  · have hex' : ex np.2 = false := Bool.eq_false_iff.mpr hex
    have htask : np ∈ pairs.filter (fun np => !ex np.2) :=
      List.mem_filter.mpr ⟨hnp, by simp [hex']⟩
    have hfok : fok np.1 = true := by
      apply hall
      rw [planTasks_eq ex pairs hnd]
      exact htask
    refine List.mem_append.mpr (Or.inr (List.mem_filter.mpr ⟨htask, ?_⟩))
    simp only [existsAfter, Bool.or_eq_true, List.any_eq_true]
    exact Or.inr ⟨np, htask, by simp [hfok]⟩

/-! ## Task multiplicity -/

lemma countP_key_le_one (l : List (String × String)) (hnd : (l.map Prod.fst).Nodup)
    (n : String) : l.countP (fun t => t.1 == n) ≤ 1 := by
  have h1 : (l.map Prod.fst).countP (fun s => s == n) = l.countP (fun t => t.1 == n) := by
    rw [List.countP_map]
    rfl
  have h2 : (l.map Prod.fst).count n ≤ 1 := List.nodup_iff_count_le_one.mp hnd n
  rw [List.count] at h2
  rw [← h1]
  exact h2

lemma countP_key_eq_one_of_mem (l : List (String × String)) (hnd : (l.map Prod.fst).Nodup)
    (n : String) (p : String) (hm : (n, p) ∈ l) :
    l.countP (fun t => t.1 == n) = 1 := by
  have hle := countP_key_le_one l hnd n
  have hmem : n ∈ l.map Prod.fst := List.mem_map_of_mem Prod.fst hm
  have hpos : 0 < (l.map Prod.fst).count n := List.count_pos_iff.mpr hmem
  rw [List.count] at hpos
  have h1 : (l.map Prod.fst).countP (fun s => s == n) = l.countP (fun t => t.1 == n) := by
    rw [List.countP_map]
    rfl
  rw [h1] at hpos
  omega

/-! ## The normalizer's rewrite branch, unfolded -/

lemma tryAdjust_split_eq (url : String) (tw : Nat) (p : UrlParts) (lock : String)
    (rest : List String) (ws hs : String)
    (hp : urlparse url = .ok p)
    (hlock : lookupGrouped (parse_qs p.query) "lock" = some (lock :: rest))
    (hx : strContains lock "x" = true)
    (hsplit : pySplitChar lock 'x' = [ws, hs]) :
    tryAdjust url tw = .ok (urlunparse { p with
      query := urlencode (setGrouped (parse_qs p.query) "lock"
        [adjustedLockValue tw ws hs]) }) := by
  simp only [tryAdjust, hp, hlock, hx, hsplit, if_true]

/-! ## Claim C4: the resize-directive rewrite -/

/-- C4 (corrected). For a URL whose query carries a `lock` directive whose
first value has the form `WxH` (exactly one `x`): when both sides parse as
integers and `W ≠ 0`, the directive is rewritten to
`lock={tw}x{max 1 (round(H·tw/W))}` with CPython's half-even rounding;
when either side fails to parse as an integer — and likewise when `W = 0`,
where the height computation raises `ZeroDivisionError` instead of
producing a value — the directive is rewritten to the square fallback
`lock={tw}x{tw}`. The claim's formula is wrong at `W = 0` (see the
counterexample); everything else is as claimed. -/
theorem C4_resize_directive_amended
    (url : String) (tw : Nat) (p : UrlParts) (lock : String) (rest : List String)
    (ws hs : String)
    (hp : urlparse url = .ok p)
    (hlock : lookupGrouped (parse_qs p.query) "lock" = some (lock :: rest))
    (hx : strContains lock "x" = true)
    (hsplit : pySplitChar lock 'x' = [ws, hs]) :
    (∀ w h : Int, pyInt? ws = some w → pyInt? hs = some h → w ≠ 0 →
      parse_and_adjust_size url tw = urlunparse { p with
        query := urlencode (setGrouped (parse_qs p.query) "lock"
          [toString tw ++ "x" ++ toString (max 1 (pyRound ((h * tw : ℚ) / (w : ℚ))))]) })
    ∧ ((pyInt? ws = none ∨ pyInt? hs = none) →
      parse_and_adjust_size url tw = urlunparse { p with
        query := urlencode (setGrouped (parse_qs p.query) "lock"
          [toString tw ++ "x" ++ toString tw]) })
    ∧ (pyInt? ws = some 0 →
      parse_and_adjust_size url tw = urlunparse { p with
        query := urlencode (setGrouped (parse_qs p.query) "lock"
          [toString tw ++ "x" ++ toString tw]) }) := by
  have hbase := tryAdjust_split_eq url tw p lock rest ws hs hp hlock hx hsplit
  refine ⟨?_, ?_, ?_⟩
  · intro w h hw hh hw0
    have hcast : ((h * tw : ℚ) / (w : ℚ)) = (((h * (tw : Int) : Int) : ℚ) / ((w : Int) : ℚ)) := by
      push_cast
      ring_nf
    rw [hcast]
    rw [pyRound_intCast_div (h * (tw : Int)) w hw0]
    simp only [parse_and_adjust_size, hbase, adjustedLockValue, hw, hh, hw0, if_false,
      if_true, if_neg hw0]
  · intro hfail
    rcases hfail with hfw | hfh
    · cases hh : pyInt? hs with
      | none => simp only [parse_and_adjust_size, hbase, adjustedLockValue, hfw, hh]
      | some h => simp only [parse_and_adjust_size, hbase, adjustedLockValue, hfw, hh]
    · cases hw : pyInt? ws with
      | none => simp only [parse_and_adjust_size, hbase, adjustedLockValue, hw, hfh]
      | some w => simp only [parse_and_adjust_size, hbase, adjustedLockValue, hw, hfh]
  · intro hw0
    cases hh : pyInt? hs with
    | none => simp only [parse_and_adjust_size, hbase, adjustedLockValue, hw0, hh]
    | some h =>
      simp only [parse_and_adjust_size, hbase, adjustedLockValue, hw0, hh, if_true, if_false]

/-- C4 counterexample: with `lock=0x50` and target width 250 both sides
parse as integers, so the claim's formula `NEW_H = max(1, round(50·250/0))`
would have to hold; reading the division by zero with the rational
convention `x / 0 = 0` the formula yields height 1, but the code writes
the square fallback `250x250` (in CPython the division raises and no
height at all satisfies the claimed equation). -/
theorem C4_counterexample :
    parse_and_adjust_size "http://h/p?lock=0x50" 250 = "http://h/p?lock=250x250"
    ∧ max 1 (pyRound ((50 * 250 : ℚ) / (0 : ℚ))) = 1
    ∧ parse_and_adjust_size "http://h/p?lock=0x50" 250 ≠ "http://h/p?lock=250x1" := by
  refine ⟨by rfl, ?_, by decide⟩
  have h0 : pyRound ((50 * 250 : ℚ) / (0 : ℚ)) = 0 := by
    rw [div_zero]
    simp only [pyRound]
    rw [rat_floor_eq_intFloor]
    norm_num
  rw [h0]
  simp

/-- C4 witness: the claim's own example, `lock=100x50` with target width
250, rewritten through the amended theorem to `lock=250x125`. -/
theorem C4_witness :
    parse_and_adjust_size "http://h/p?lock=100x50" 250
      = urlunparse
          { scheme := "http", netloc := "h", path := "/p", params := "",
            query := urlencode (setGrouped (parse_qs "lock=100x50") "lock"
              [toString 250 ++ "x"
                ++ toString (max 1 (pyRound ((50 * 250 : ℚ) / (100 : ℚ))))]),
            fragment := "" }
    ∧ parse_and_adjust_size "http://h/p?lock=100x50" 250 = "http://h/p?lock=250x125" := by
  constructor
  · exact (C4_resize_directive_amended "http://h/p?lock=100x50" 250
      ⟨"http", "h", "/p", "", "lock=100x50", ""⟩ "100x50" [] "100" "50"
      (by rfl) (by rfl) (by rfl) (by rfl)).1 100 50 (by rfl) (by rfl)
      (by decide)
  · rfl

/-! ## Claim C5: the normalizer never raises, and what its handlers return -/

/-- C5 (corrected). `parse_and_adjust_size` is total (every exception is
caught by one of its two handlers), and any exception reaching the outer
bare `except` — a `urlparse` failure or the `w, h = lock.split("x")`
destructuring error — returns the original URL unchanged. But an
exception inside the inner `try` (a failed `int()`, or the
`ZeroDivisionError` of `lock=0xH`) is handled by the inner handler, which
substitutes the square fallback `lock={tw}x{tw}` and still rewrites the
URL — it does not return the original URL as the claim states. -/
theorem C5_never_fails_amended :
    (∀ url tw, tryAdjust url tw = .error () → parse_and_adjust_size url tw = url)
    ∧ (∀ (url : String) (tw : Nat) (p : UrlParts) (lock : String) (rest : List String)
        (ws hs : String),
        urlparse url = .ok p →
        lookupGrouped (parse_qs p.query) "lock" = some (lock :: rest) →
        strContains lock "x" = true →
        pySplitChar lock 'x' = [ws, hs] →
        pyInt? ws = some 0 →
        parse_and_adjust_size url tw = urlunparse { p with
          query := urlencode (setGrouped (parse_qs p.query) "lock"
            [toString tw ++ "x" ++ toString tw]) }) := by
  constructor
  · intro url tw h
    simp [parse_and_adjust_size, h]
  · intro url tw p lock rest ws hs hp hlock hx hsplit hw0
    have hbase := tryAdjust_split_eq url tw p lock rest ws hs hp hlock hx hsplit
    cases hh : pyInt? hs with
    | none => simp only [parse_and_adjust_size, hbase, adjustedLockValue, hw0, hh]
    | some h =>
      simp only [parse_and_adjust_size, hbase, adjustedLockValue, hw0, hh, if_true, if_false]

/-- C5 counterexample: `lock=0x8` raises `ZeroDivisionError` while
computing the new height, yet the function does not return the original
URL — the inner handler rewrites the directive to the square fallback. -/
theorem C5_counterexample :
    parse_and_adjust_size "http://h/p?lock=0x8" 250 = "http://h/p?lock=250x250"
    ∧ parse_and_adjust_size "http://h/p?lock=0x8" 250 ≠ "http://h/p?lock=0x8" :=
  ⟨by rfl, by decide⟩

/-- C5 witness: an exception that does reach the outer handler (the
three-part split `lock=1x2x3` fails tuple destructuring) returns the
original URL unchanged. -/
theorem C5_witness :
    parse_and_adjust_size "http://h/p?lock=1x2x3" 250 = "http://h/p?lock=1x2x3" :=
  C5_never_fails_amended.1 "http://h/p?lock=1x2x3" 250 (by rfl)

/-! ## Claim C6: the local-resize path of the worker -/

/-- C6 (corrected). For a task whose normalized URL does not contain the
marker `lock=`, a decoded `w×h` image (`w > 0`) is resized to width
`TARGET_WIDTH = 250` and height `⌊h·250/w⌋` (truncating division) before
the mode conversion and encoding; when the URL does contain the marker, no
local resize happens and the decoded dimensions are kept. The claim's own
example is wrong: a 400×200 source yields a 250×125 artifact, not 250×100
(see the counterexample). -/
theorem C6_local_resize_amended
    (body : List Nat) (decode : List Nat → Option PImage) (url : String) (img : PImage)
    (hdec : decode body = some img) :
    (strContains url "lock=" = false → 0 < img.width →
      (download_and_convert_to_webp (.ok body) decode url).saved
        = some ⟨TARGET_WIDTH, img.height * TARGET_WIDTH / img.width,
            if modeStr img.mode = "RGBA" ∨ modeStr img.mode = "P" then PilMode.mRGBA
            else PilMode.mRGB⟩)
    ∧ (strContains url "lock=" = true →
      (download_and_convert_to_webp (.ok body) decode url).saved
        = some ⟨img.width, img.height,
            if modeStr img.mode = "RGBA" ∨ modeStr img.mode = "P" then PilMode.mRGBA
            else PilMode.mRGB⟩) := by
  constructor
  · intro hlock hw
    have hw' : ¬(img.width = 0) := Nat.pos_iff_ne_zero.mp hw
    simp only [download_and_convert_to_webp, hdec, hlock, Bool.false_eq_true, if_false,
      if_neg hw']
    by_cases hm : modeStr img.mode = "RGBA" ∨ modeStr img.mode = "P" <;> simp [hm]
  · intro hlock
    simp only [download_and_convert_to_webp, hdec, hlock, if_true]
    by_cases hm : modeStr img.mode = "RGBA" ∨ modeStr img.mode = "P" <;> simp [hm]

/-- C6 counterexample: a 400×200 source with no resize directive produces
a 250×125 artifact — the claim's example value 250×100 is wrong
(⌊200·250/400⌋ = 125). -/
theorem C6_counterexample :
    (download_and_convert_to_webp (.ok []) (fun _ => some ⟨400, 200, .mRGB⟩)
        "http://h/full.png").saved = some ⟨250, 125, .mRGB⟩
    ∧ (download_and_convert_to_webp (.ok []) (fun _ => some ⟨400, 200, .mRGB⟩)
        "http://h/full.png").saved ≠ some ⟨250, 100, .mRGB⟩ :=
  ⟨by rfl, by decide⟩

/-- C6 witness: the amended theorem at the 400×200 source. -/
theorem C6_witness :
    (download_and_convert_to_webp (.ok []) (fun _ => some ⟨400, 200, .mRGB⟩)
        "http://h/full.png").saved
      = some ⟨TARGET_WIDTH, 200 * TARGET_WIDTH / 400,
          if modeStr PilMode.mRGB = "RGBA" ∨ modeStr PilMode.mRGB = "P" then PilMode.mRGBA
          else PilMode.mRGB⟩ :=
  (C6_local_resize_amended [] (fun _ => some ⟨400, 200, .mRGB⟩) "http://h/full.png"
    ⟨400, 200, .mRGB⟩ rfl).1 (by decide) (by decide)

/-! ## Claim C7: the color-mode normalization -/

/-- C7 (corrected). The worker converts an image to RGBA exactly when its
mode string is `RGBA` or `P`, and to RGB (three channels, no alpha) in
every other case — including the alpha-bearing modes `LA`, `La`, `PA` and
`RGBa`, which the claim says would keep an alpha channel but which the
code maps to RGB (see the counterexample with `LA`). -/
theorem C7_mode_amended
    (body : List Nat) (decode : List Nat → Option PImage) (url : String) (img : PImage)
    (hdec : decode body = some img) (hw : 0 < img.width) :
    ∃ img2, (download_and_convert_to_webp (.ok body) decode url).saved = some img2
      ∧ (img2.mode = PilMode.mRGBA ↔ (img.mode = PilMode.mRGBA ∨ img.mode = PilMode.mP))
      ∧ (img2.mode = PilMode.mRGBA ∨ img2.mode = PilMode.mRGB)
      ∧ (modeHasAlpha img2.mode = true ↔ (img.mode = PilMode.mRGBA ∨ img.mode = PilMode.mP))
      ∧ modeChannels PilMode.mRGB = 3 := by
  have hmode : (modeStr img.mode = "RGBA" ∨ modeStr img.mode = "P")
      ↔ (img.mode = PilMode.mRGBA ∨ img.mode = PilMode.mP) := by
    cases img.mode <;> simp [modeStr]
  have hw' : ¬(img.width = 0) := Nat.pos_iff_ne_zero.mp hw
  by_cases hlock : strContains url "lock="
  · refine ⟨_, by simp only [download_and_convert_to_webp, hdec, hlock, if_true]; rfl, ?_⟩
    by_cases hm : modeStr img.mode = "RGBA" ∨ modeStr img.mode = "P"
    · simp [hm, hmode.mp hm, modeHasAlpha, modeChannels]
    · have hm' := hm
      rw [hmode] at hm'
      simp [hm, hm', modeHasAlpha, modeChannels]
  · have hlock' : strContains url "lock=" = false := Bool.eq_false_iff.mpr hlock
    refine ⟨_, by simp only [download_and_convert_to_webp, hdec, hlock', Bool.false_eq_true,
      if_false, if_neg hw']; rfl, ?_⟩
    by_cases hm : modeStr img.mode = "RGBA" ∨ modeStr img.mode = "P"
    · simp [hm, hmode.mp hm, modeHasAlpha, modeChannels]
    · have hm' := hm
      rw [hmode] at hm'
      simp [hm, hm', modeHasAlpha, modeChannels]

/-- C7 counterexample: an `LA` image (grayscale with alpha) is converted
to three-channel `RGB`, dropping its alpha channel although the claim says
alpha-bearing images keep one. -/
theorem C7_counterexample :
    (download_and_convert_to_webp (.ok []) (fun _ => some ⟨250, 100, .mLA⟩)
        "http://h/i.png?lock=250x100").saved = some ⟨250, 100, .mRGB⟩
    ∧ modeHasAlpha PilMode.mLA = true
    ∧ modeHasAlpha PilMode.mRGB = false
    ∧ modeChannels PilMode.mRGB = 3 :=
  ⟨by rfl, by decide, by decide, by decide⟩

/-- C7 witness: the amended theorem at an RGBA source, which keeps alpha. -/
theorem C7_witness :
    ∃ img2, (download_and_convert_to_webp (.ok []) (fun _ => some ⟨250, 90, .mRGBA⟩)
        "http://h/i.png?lock=250x90").saved = some img2
      ∧ (img2.mode = PilMode.mRGBA ↔ (PilMode.mRGBA = PilMode.mRGBA ∨ PilMode.mRGBA = PilMode.mP))
      ∧ (img2.mode = PilMode.mRGBA ∨ img2.mode = PilMode.mRGB)
      ∧ (modeHasAlpha img2.mode = true
          ↔ (PilMode.mRGBA = PilMode.mRGBA ∨ PilMode.mRGBA = PilMode.mP))
      ∧ modeChannels PilMode.mRGB = 3 :=
  C7_mode_amended [] (fun _ => some ⟨250, 90, .mRGBA⟩) "http://h/i.png?lock=250x90"
    ⟨250, 90, .mRGBA⟩ rfl (by decide)

/-! ## Claim C8: the worker's failure discipline -/

/-- C8 (confirmed). The worker is a total function of its oracles — no
exception escapes its boundary, every run returns success or failure. It
succeeds exactly when the final path was created by the rename of the
fully-written temporary file (the only event that ever creates the final
path); on every failure path — transport error, non-2xx status, decode
failure, or a convert exception such as the zero-width resize division —
the temporary file does not survive and the final path is never created. -/
theorem C8_failure_discipline
    (http : HttpOutcome) (decode : List Nat → Option PImage) (url : String) :
    ((download_and_convert_to_webp http decode url).success = true
      ↔ finalExistsAfter (download_and_convert_to_webp http decode url).events = true)
    ∧ ((download_and_convert_to_webp http decode url).success = false →
        tmpExistsAfter (download_and_convert_to_webp http decode url).events = false
        ∧ finalExistsAfter (download_and_convert_to_webp http decode url).events = false)
    ∧ (FsEv.renameTmpToFinal ∈ (download_and_convert_to_webp http decode url).events →
        FsEv.writeTmp ∈ (download_and_convert_to_webp http decode url).events
        ∧ (download_and_convert_to_webp http decode url).success = true) := by
  cases http with
  | transportError => simp [download_and_convert_to_webp, tmpExistsAfter, finalExistsAfter]
  | badStatus => simp [download_and_convert_to_webp, tmpExistsAfter, finalExistsAfter]
  | ok body =>
    cases hdec : decode body with
    | none => simp [download_and_convert_to_webp, hdec, tmpExistsAfter, finalExistsAfter]
    | some img =>
      by_cases hlock : strContains url "lock="
      · simp only [download_and_convert_to_webp, hdec, hlock, if_true]
        simp [tmpExistsAfter, finalExistsAfter]
      · have hlock' : strContains url "lock=" = false := Bool.eq_false_iff.mpr hlock
        by_cases hw : img.width = 0
        · simp only [download_and_convert_to_webp, hdec, hlock', Bool.false_eq_true, if_false,
            hw, if_true]
          simp [tmpExistsAfter, finalExistsAfter]
        · simp only [download_and_convert_to_webp, hdec, hlock', Bool.false_eq_true, if_false,
            if_neg hw]
          simp [tmpExistsAfter, finalExistsAfter]

/-- C8 witness: the discipline at a failing decode — the temporary file is
unlinked, nothing reaches the final path, the run reports failure. -/
theorem C8_witness :
    ((download_and_convert_to_webp (.ok []) (fun _ => none) "http://h/x.png").success = true
      ↔ finalExistsAfter (download_and_convert_to_webp (.ok [])
          (fun _ => none) "http://h/x.png").events = true)
    ∧ ((download_and_convert_to_webp (.ok []) (fun _ => none) "http://h/x.png").success
          = false →
        tmpExistsAfter (download_and_convert_to_webp (.ok [])
          (fun _ => none) "http://h/x.png").events = false
        ∧ finalExistsAfter (download_and_convert_to_webp (.ok [])
            (fun _ => none) "http://h/x.png").events = false)
    ∧ (FsEv.renameTmpToFinal ∈ (download_and_convert_to_webp (.ok [])
          (fun _ => none) "http://h/x.png").events →
        FsEv.writeTmp ∈ (download_and_convert_to_webp (.ok [])
          (fun _ => none) "http://h/x.png").events
        ∧ (download_and_convert_to_webp (.ok []) (fun _ => none) "http://h/x.png").success
            = true) :=
  C8_failure_discipline (.ok []) (fun _ => none) "http://h/x.png"

/-! ## Claim C10: the scraper's per-channel file writes -/

/-- C10 (corrected). The scraper skips a channel's files only when BOTH
day schedules are empty; whenever at least one is non-empty it writes both
`today/{slug}.json` and `tomorrow/{slug}.json` — in particular a channel
with programmes today but an empty tomorrow schedule still gets a
tomorrow file (carrying an empty `schedule` array), contrary to the
claim. -/
theorem C10_tomorrow_file_amended
    (name todayDateStr tomorrowDateStr : String) (st stt : List Json) :
    ((("tomorrow/" ++ slugify name ++ ".json")
        ∈ (channelFiles name todayDateStr tomorrowDateStr st stt).map Prod.fst)
      ↔ ¬(st = [] ∧ stt = []))
    ∧ (st = [] → stt = [] → channelFiles name todayDateStr tomorrowDateStr st stt = []) := by
  constructor
  · by_cases hboth : st.isEmpty && stt.isEmpty
    · have hpair := (Bool.and_eq_true _ _).mp hboth
      have hst : st = [] := List.isEmpty_iff.mp hpair.1
      have hstt : stt = [] := List.isEmpty_iff.mp hpair.2
      simp [channelFiles, hboth, hst, hstt]
    · have hne : ¬(st = [] ∧ stt = []) := by
        rintro ⟨h1, h2⟩
        simp [h1, h2] at hboth
      simp only [channelFiles, hboth, Bool.false_eq_true, if_false]
      simp [hne]
  · intro h1 h2
    simp [channelFiles, h1, h2]

/-- C10 counterexample: a channel with one programme today and an empty
tomorrow schedule still gets `tomorrow/star-plus.json`, whose payload
carries an empty `schedule` array. -/
theorem C10_counterexample :
    channelFiles "Star Plus" "January 01, 2026" "January 02, 2026" [Json.null] []
      = [("today/star-plus.json",
          channelPayload "Star Plus" "January 01, 2026" [Json.null]),
         ("tomorrow/star-plus.json",
          channelPayload "Star Plus" "January 02, 2026" [])] := by
  rfl

/-- C10 witness: the amended theorem at that channel — the tomorrow file
is present exactly because not both schedules are empty. -/
theorem C10_witness :
    ((("tomorrow/" ++ slugify "Star Plus" ++ ".json")
        ∈ (channelFiles "Star Plus" "January 01, 2026" "January 02, 2026"
            [Json.null] []).map Prod.fst)
      ↔ ¬(([Json.null] : List Json) = [] ∧ ([] : List Json) = []))
    ∧ (([Json.null] : List Json) = [] → ([] : List Json) = [] →
        channelFiles "Star Plus" "January 01, 2026" "January 02, 2026" [Json.null] [] = []) :=
  C10_tomorrow_file_amended "Star Plus" "January 01, 2026" "January 02, 2026" [Json.null] []

/-! ## Claim C2: deduplication by normalized URL -/

/-- C2 (corrected). Two schedule items whose `show_logo` URLs normalize to
the same string `n` yield AT MOST one fetch task for `n` — exactly one
when the computed artifact path does not already exist (when it does, the
planner records it at once and emits no task at all, against the claim's
"exactly one"); and whenever `n` is in the ResultIndex, both items'
`show_logo` fields are rewritten to the same public URL. -/
theorem C2_dedup_amended
    (ex fok : String → Bool) (jsonPath : String) (data : List (String × Json))
    (sched : List Json) (ups : List (Nat × String)) (pairs : List (String × String))
    (r : RunResult) (i j : Nat) (ui uj n : String)
    (hsched : (objGet data "schedule").getD (.arr []) = .arr sched)
    (hups : extractLogos sched = .ok ups)
    (hpairs : mapPathPairs (slug_from_filename jsonPath) (dayFor jsonPath)
        ((groupByNorm TARGET_WIDTH ups).map (fun e => e.1)) = .ok pairs)
    (hrun : processFile ex fok jsonPath data = .ok r)
    (hi : (i, ui) ∈ ups) (hj : (j, uj) ∈ ups)
    (hni : parse_and_adjust_size ui TARGET_WIDTH = n)
    (hnj : parse_and_adjust_size uj TARGET_WIDTH = n) :
    r.tasks.countP (fun t => t.1 == n) ≤ 1
    ∧ (∀ pth, (n, pth) ∈ pairs → ex pth = false →
        r.tasks.countP (fun t => t.1 == n) = 1)
    ∧ (∀ loc, lookupA (resolvedIdx ex fok pairs) n = some loc →
        ∀ out, r.output = some out →
          ∀ sched2, objGet out "schedule" = some (.arr sched2) →
            sched2[i]? = (sched[i]?).map (setShowLogo
              (wpPrefixStr ++ "/" ++ slug_from_filename jsonPath ++ "/" ++ dayFor jsonPath
                ++ "/" ++ osBasename loc))
            ∧ sched2[j]? = (sched[j]?).map (setShowLogo
              (wpPrefixStr ++ "/" ++ slug_from_filename jsonPath ++ "/" ++ dayFor jsonPath
                ++ "/" ++ osBasename loc))) := by
  have hne : ups.isEmpty = false := by
    cases ups with
    | nil => simp at hi
    | cons a t => rfl
  obtain ⟨htasks, hout, _⟩ :=
    processFile_components ex fok jsonPath data sched ups pairs r hsched hups hne hpairs hrun
  have hmp := mapPathPairs_ok (slug_from_filename jsonPath) (dayFor jsonPath) _ pairs hpairs
  have hnd : (pairs.map Prod.fst).Nodup := by
    rw [hmp.1]
    exact groupByNorm_keys_nodup TARGET_WIDTH ups
  have hplan := planTasks_eq ex pairs hnd
  have htnd : (((planTasks ex pairs).2).map Prod.fst).Nodup := by
    rw [hplan]
    exact ((List.filter_sublist _).map Prod.fst).nodup hnd
  have hukeys : (ups.map Prod.fst).Nodup := by
    simp only [extractLogos] at hups
    have hsub := extractFrom_keys_sublist sched.enum ups hups
    have henum : (sched.enum.map Prod.fst).Nodup := by
      rw [List.enum_map_fst]
      exact List.nodup_range _
    exact henum.sublist hsub
  refine ⟨?_, ?_, ?_⟩
  · rw [htasks]
    exact countP_key_le_one _ htnd n
  · intro pth hmem hex
    rw [htasks, hplan]
    exact countP_key_eq_one_of_mem _ (by rw [← hplan]; exact htnd) n pth
      (List.mem_filter.mpr ⟨hmem, by simp [hex]⟩)
  · intro loc hloc out hout2 sched2 hsched2
    rw [hout] at hout2
    have hout3 := Option.some.inj hout2
    rw [← hout3, objGet_objSet_self] at hsched2
    have hsched3 := Option.some.inj hsched2
    have hsched4 : sched2 = (ups.foldl
        (rewriteOne (resolvedIdx ex fok pairs) (slug_from_filename jsonPath)
          (dayFor jsonPath) TARGET_WIDTH)
        (sched, missingWarns ex fok pairs)).1 := by
      cases hsched3
      rfl
    constructor
    · rw [hsched4, rewrite_fold_sched_mem (resolvedIdx ex fok pairs) _ _ _ ups sched _ i ui
        hi hukeys, hni, hloc]
    · rw [hsched4, rewrite_fold_sched_mem (resolvedIdx ex fok pairs) _ _ _ ups sched _ j uj
        hj hukeys, hnj, hloc]

set_option maxRecDepth 10000 in
/-- C2 counterexample: both items normalize to the same URL, but because
the computed artifact path already exists the planner emits ZERO fetch
tasks, not the "exactly one" the claim states (the items still resolve to
the same public URL). -/
theorem C2_counterexample :
    extractLogos twoItemSched = .ok [(0, logoUrl), (1, logoUrl)]
    ∧ parse_and_adjust_size logoUrl TARGET_WIDTH = logoUrl
    ∧ processFile (fun p => p == logoPath) (fun _ => false) "today/chan.json" twoItemData
        = .ok (RunResult.mk [] (some twoItemOut) []) :=
  ⟨rfl, rfl, rfl⟩

set_option maxRecDepth 10000 in
/-- C2 witness: the amended theorem at a fresh output directory — the two
aliasing items produce exactly one fetch task and both end up at the same
public URL. -/
theorem C2_witness :
    (RunResult.mk [(logoUrl, logoPath)] (some twoItemOut) []).tasks.countP
      (fun t => t.1 == logoUrl) ≤ 1
    ∧ (∀ pth, (logoUrl, pth) ∈ [(logoUrl, logoPath)] → (fun _ : String => false) pth = false →
        (RunResult.mk [(logoUrl, logoPath)] (some twoItemOut) []).tasks.countP
          (fun t => t.1 == logoUrl) = 1)
    ∧ (∀ loc, lookupA (resolvedIdx (fun _ => false) (fun _ => true) [(logoUrl, logoPath)])
          logoUrl = some loc →
        ∀ out, (RunResult.mk [(logoUrl, logoPath)] (some twoItemOut) []).output = some out →
          ∀ sched2, objGet out "schedule" = some (.arr sched2) →
            sched2[0]? = (twoItemSched[0]?).map (setShowLogo
              (wpPrefixStr ++ "/" ++ slug_from_filename "today/chan.json" ++ "/"
                ++ dayFor "today/chan.json" ++ "/" ++ osBasename loc))
            ∧ sched2[1]? = (twoItemSched[1]?).map (setShowLogo
              (wpPrefixStr ++ "/" ++ slug_from_filename "today/chan.json" ++ "/"
                ++ dayFor "today/chan.json" ++ "/" ++ osBasename loc))) :=
  C2_dedup_amended (fun _ => false) (fun _ => true) "today/chan.json" twoItemData
    twoItemSched [(0, logoUrl), (1, logoUrl)] [(logoUrl, logoPath)]
    (RunResult.mk [(logoUrl, logoPath)] (some twoItemOut) []) 0 1 logoUrl logoUrl logoUrl
    (by rfl) (by rfl) (by rfl) (by rfl) (by decide) (by decide) rfl rfl

/-- C3 (corrected). The deduplication key is the EXACT normalized URL
string, and the normalizer re-encodes the query in its original parse
order — query-parameter order is NOT canonicalized. Two items whose URLs
normalize to distinct strings (as order-swapped queries do) each get
their own fetch task: neither is merged with the other. -/
theorem C3_dedup_exact_key_amended
    (ex fok : String → Bool) (jsonPath : String) (data : List (String × Json))
    (sched : List Json) (ups : List (Nat × String)) (pairs : List (String × String))
    (r : RunResult) (i j : Nat) (ui uj n1 n2 pth1 pth2 : String)
    (hsched : (objGet data "schedule").getD (.arr []) = .arr sched)
    (hups : extractLogos sched = .ok ups)
    (hpairs : mapPathPairs (slug_from_filename jsonPath) (dayFor jsonPath)
        ((groupByNorm TARGET_WIDTH ups).map (fun e => e.1)) = .ok pairs)
    (hrun : processFile ex fok jsonPath data = .ok r)
    (hi : (i, ui) ∈ ups) (hj : (j, uj) ∈ ups)
    (hn1 : parse_and_adjust_size ui TARGET_WIDTH = n1)
    (hn2 : parse_and_adjust_size uj TARGET_WIDTH = n2)
    (hne12 : n1 ≠ n2)
    (hm1 : (n1, pth1) ∈ pairs) (hm2 : (n2, pth2) ∈ pairs)
    (hex1 : ex pth1 = false) (hex2 : ex pth2 = false) :
    r.tasks.countP (fun t => t.1 == n1) = 1
    ∧ r.tasks.countP (fun t => t.1 == n2) = 1
    ∧ (n1, pth1) ∈ r.tasks ∧ (n2, pth2) ∈ r.tasks
    ∧ (n1, pth1) ≠ (n2, pth2) := by
  have hne : ups.isEmpty = false := by
    cases ups with
    | nil => simp at hi
    | cons a t => rfl
  obtain ⟨htasks, _, _⟩ :=
    processFile_components ex fok jsonPath data sched ups pairs r hsched hups hne hpairs hrun
  have hmp := mapPathPairs_ok (slug_from_filename jsonPath) (dayFor jsonPath) _ pairs hpairs
  have hnd : (pairs.map Prod.fst).Nodup := by
    rw [hmp.1]
    exact groupByNorm_keys_nodup TARGET_WIDTH ups
  have hplan := planTasks_eq ex pairs hnd
  have htnd : ((pairs.filter (fun np => !ex np.2)).map Prod.fst).Nodup :=
    ((List.filter_sublist _).map Prod.fst).nodup hnd
  refine ⟨?_, ?_, ?_, ?_, ?_⟩
  · rw [htasks, hplan]
    exact countP_key_eq_one_of_mem _ htnd n1 pth1
      (List.mem_filter.mpr ⟨hm1, by simp [hex1]⟩)
  · rw [htasks, hplan]
    exact countP_key_eq_one_of_mem _ htnd n2 pth2
      (List.mem_filter.mpr ⟨hm2, by simp [hex2]⟩)
  · rw [htasks, hplan]
    exact List.mem_filter.mpr ⟨hm1, by simp [hex1]⟩
  · rw [htasks, hplan]
    exact List.mem_filter.mpr ⟨hm2, by simp [hex2]⟩
  · intro hcontra
    exact hne12 (congrArg Prod.fst hcontra)

set_option maxRecDepth 10000 in
/-- C3 counterexample: `?a=1&b=2` versus `?b=2&a=1` — each normalizes to
itself (parameter order preserved), the dedup keys differ, and processing
emits TWO fetch tasks mapping to two DIFFERENT local artifact paths,
refuting "at most one fetch task and ... the same local artifact path". -/
theorem C3_counterexample :
    parse_and_adjust_size qUrlA TARGET_WIDTH = qUrlA
    ∧ parse_and_adjust_size qUrlB TARGET_WIDTH = qUrlB
    ∧ qUrlA ≠ qUrlB
    ∧ processFile (fun _ => false) (fun _ => true) "today/chan.json" qData
        = .ok (RunResult.mk [(qUrlA, qPathA), (qUrlB, qPathB)] (some qOut) [])
    ∧ qPathA ≠ qPathB :=
  ⟨rfl, rfl, by decide, rfl, by decide⟩

set_option maxRecDepth 10000 in
/-- C3 witness: the amended theorem at the order-swapped pair — one task
per distinct normalized string, and the two tasks are distinct. -/
theorem C3_witness :
    (RunResult.mk [(qUrlA, qPathA), (qUrlB, qPathB)] (some qOut) []).tasks.countP
      (fun t => t.1 == qUrlA) = 1
    ∧ (RunResult.mk [(qUrlA, qPathA), (qUrlB, qPathB)] (some qOut) []).tasks.countP
      (fun t => t.1 == qUrlB) = 1
    ∧ (qUrlA, qPathA) ∈ (RunResult.mk [(qUrlA, qPathA), (qUrlB, qPathB)] (some qOut) []).tasks
    ∧ (qUrlB, qPathB) ∈ (RunResult.mk [(qUrlA, qPathA), (qUrlB, qPathB)] (some qOut) []).tasks
    ∧ (qUrlA, qPathA) ≠ (qUrlB, qPathB) :=
  C3_dedup_exact_key_amended (fun _ => false) (fun _ => true) "today/chan.json" qData
    qSched [(0, qUrlA), (1, qUrlB)] [(qUrlA, qPathA), (qUrlB, qPathB)]
    (RunResult.mk [(qUrlA, qPathA), (qUrlB, qPathB)] (some qOut) []) 0 1
    qUrlA qUrlB qUrlA qUrlB qPathA qPathB
    (by rfl) (by rfl) (by rfl) (by rfl) (by decide) (by decide) rfl rfl
    (by decide) (by decide) (by decide) rfl rfl

/-- C9 (confirmed). The persisted object keeps every top-level key other
than `schedule` unchanged; the rewritten schedule has the same length;
items never referenced by `to_update` are byte-identical; a referenced
item whose normalized URL is in the ResultIndex is rewritten to the
public URL (its other fields preserved, since `objSet` touches only
`show_logo`); a referenced item whose normalized URL is absent is left
exactly as it was and a warning naming its original URL is emitted. -/
theorem C9_rewrite_frame
    (ex fok : String → Bool) (jsonPath : String) (data : List (String × Json))
    (sched : List Json) (ups : List (Nat × String)) (pairs : List (String × String))
    (r : RunResult) (i : Nat) (u : String)
    (hsched : (objGet data "schedule").getD (.arr []) = .arr sched)
    (hups : extractLogos sched = .ok ups)
    (hpairs : mapPathPairs (slug_from_filename jsonPath) (dayFor jsonPath)
        ((groupByNorm TARGET_WIDTH ups).map (fun e => e.1)) = .ok pairs)
    (hrun : processFile ex fok jsonPath data = .ok r)
    (hi : (i, u) ∈ ups) :
    ∃ out sched2, r.output = some out
    ∧ objGet out "schedule" = some (.arr sched2)
    ∧ (∀ k, k ≠ "schedule" → objGet out k = objGet data k)
    ∧ sched2.length = sched.length
    ∧ (∀ j, (∀ v, (j, v) ∉ ups) → sched2[j]? = sched[j]?)
    ∧ (∀ loc, lookupA (resolvedIdx ex fok pairs)
          (parse_and_adjust_size u TARGET_WIDTH) = some loc →
        sched2[i]? = (sched[i]?).map (setShowLogo
          (wpPrefixStr ++ "/" ++ slug_from_filename jsonPath ++ "/" ++ dayFor jsonPath
            ++ "/" ++ osBasename loc))
        ∧ ∀ kvs k', sched[i]? = some (.obj kvs) → k' ≠ "show_logo" →
            objGet (objSet kvs "show_logo" (.str (wpPrefixStr ++ "/"
              ++ slug_from_filename jsonPath ++ "/" ++ dayFor jsonPath
              ++ "/" ++ osBasename loc))) k' = objGet kvs k')
    ∧ (lookupA (resolvedIdx ex fok pairs)
          (parse_and_adjust_size u TARGET_WIDTH) = none →
        sched2[i]? = sched[i]?
        ∧ ("Failed image for " ++ u) ∈ r.warnings) := by
  have hne : ups.isEmpty = false := by
    cases ups with
    | nil => simp at hi
    | cons a t => rfl
  obtain ⟨htasks, hout, hwarns⟩ :=
    processFile_components ex fok jsonPath data sched ups pairs r hsched hups hne hpairs hrun
  have hukeys : (ups.map Prod.fst).Nodup := by
    simp only [extractLogos] at hups
    have hsub := extractFrom_keys_sublist sched.enum ups hups
    have henum : (sched.enum.map Prod.fst).Nodup := by
      rw [List.enum_map_fst]
      exact List.nodup_range _
    exact henum.sublist hsub
  refine ⟨_, _, hout, objGet_objSet_self data "schedule" _, ?_, ?_, ?_, ?_, ?_⟩
  · intro k hk
    exact objGet_objSet_ne data "schedule" k _ hk
  · exact rewrite_fold_sched_length _ _ _ _ ups sched _
  · intro j hj
    exact rewrite_fold_sched_untouched _ _ _ _ ups sched _ j hj
  · intro loc hloc
    constructor
    · rw [rewrite_fold_sched_mem (resolvedIdx ex fok pairs) _ _ _ ups sched _ i u hi hukeys,
        hloc]
    · intro kvs k' _ hk'
      exact objGet_objSet_ne kvs "show_logo" k' _ hk'
  · intro hloc
    constructor
    · rw [rewrite_fold_sched_mem (resolvedIdx ex fok pairs) _ _ _ ups sched _ i u hi hukeys,
        hloc]
    · rw [hwarns, rewrite_fold_warns]
      refine List.mem_append.mpr (Or.inr ?_)
      exact List.mem_map.mpr ⟨(i, u), List.mem_filter.mpr ⟨hi, by simp [hloc]⟩, rfl⟩

set_option maxRecDepth 10000 in
/-- C9 witness: a run where `goodUrl` fetches and `badUrl` does not — the
extra top-level key passes through, the failed item stays byte-identical
with its warning, and the successful item is rewritten in place. -/
theorem C9_witness :
    ∃ out sched2, (RunResult.mk [(goodUrl, goodPath), (badUrl, badPath)] (some mixOut)
        ["Missing after download: " ++ badUrl, "Failed image for " ++ badUrl]).output
          = some out
    ∧ objGet out "schedule" = some (.arr sched2)
    ∧ (∀ k, k ≠ "schedule" → objGet out k = objGet mixData k)
    ∧ sched2.length = mixSched.length
    ∧ (∀ j, (∀ v, (j, v) ∉ [(0, goodUrl), (1, badUrl)]) → sched2[j]? = mixSched[j]?)
    ∧ (∀ loc, lookupA (resolvedIdx (fun _ => false) (fun s => s == goodUrl)
          [(goodUrl, goodPath), (badUrl, badPath)])
          (parse_and_adjust_size badUrl TARGET_WIDTH) = some loc →
        sched2[1]? = (mixSched[1]?).map (setShowLogo
          (wpPrefixStr ++ "/" ++ slug_from_filename "today/chan.json" ++ "/"
            ++ dayFor "today/chan.json" ++ "/" ++ osBasename loc))
        ∧ ∀ kvs k', mixSched[1]? = some (.obj kvs) → k' ≠ "show_logo" →
            objGet (objSet kvs "show_logo" (.str (wpPrefixStr ++ "/"
              ++ slug_from_filename "today/chan.json" ++ "/" ++ dayFor "today/chan.json"
              ++ "/" ++ osBasename loc))) k' = objGet kvs k')
    ∧ (lookupA (resolvedIdx (fun _ => false) (fun s => s == goodUrl)
          [(goodUrl, goodPath), (badUrl, badPath)])
          (parse_and_adjust_size badUrl TARGET_WIDTH) = none →
        sched2[1]? = mixSched[1]?
        ∧ ("Failed image for " ++ badUrl)
            ∈ (RunResult.mk [(goodUrl, goodPath), (badUrl, badPath)] (some mixOut)
                ["Missing after download: " ++ badUrl,
                 "Failed image for " ++ badUrl]).warnings) :=
  C9_rewrite_frame (fun _ => false) (fun s => s == goodUrl) "today/chan.json" mixData
    mixSched [(0, goodUrl), (1, badUrl)] [(goodUrl, goodPath), (badUrl, badPath)]
    (RunResult.mk [(goodUrl, goodPath), (badUrl, badPath)] (some mixOut)
      ["Missing after download: " ++ badUrl, "Failed image for " ++ badUrl]) 1 badUrl
    (by rfl) (by rfl) (by rfl) (by rfl) (by decide)

/-- The rewrite fold only consults the ResultIndex through lookups at the
items' normalized URLs. -/
lemma rewrite_fold_congr (R1 R2 : List (String × String)) (slug day : String) (tw : Nat) :
    ∀ (ups : List (Nat × String)) (acc : List Json × List String),
      (∀ iu ∈ ups, lookupA R1 (parse_and_adjust_size iu.2 tw)
        = lookupA R2 (parse_and_adjust_size iu.2 tw)) →
      ups.foldl (rewriteOne R1 slug day tw) acc = ups.foldl (rewriteOne R2 slug day tw) acc
  | [], _, _ => rfl
  | iu :: rest, acc, h => by
    simp only [List.foldl_cons]
    have hstep : rewriteOne R1 slug day tw acc iu = rewriteOne R2 slug day tw acc iu := by
      simp only [rewriteOne, h iu (List.mem_cons_self iu rest)]
    rw [hstep]
    exact rewrite_fold_congr R1 R2 slug day tw rest _
      (fun x hx => h x (List.mem_cons_of_mem iu hx))

/-- C1 (corrected). A run whose every fetch succeeded leaves a state in
which re-processing the SAME input performs zero fetches and writes the
SAME object as the first run (which is NOT byte-identical to the input:
the first run rewrites `show_logo` fields); the first run also ends with
no warnings. -/
theorem C1_second_run_amended
    (ex fok fok2 : String → Bool) (jsonPath : String) (data : List (String × Json))
    (r1 : RunResult)
    (hrun1 : processFile ex fok jsonPath data = .ok r1)
    (hall : ∀ t ∈ r1.tasks, fok t.1 = true) :
    processFile (existsAfter ex fok r1.tasks) fok2 jsonPath data
      = .ok (RunResult.mk [] r1.output r1.warnings)
    ∧ r1.warnings = [] := by
  cases hsch : (objGet data "schedule").getD (.arr []) with
  | arr a =>
    cases hext : extractLogos a with
    | error e =>
      exfalso
      simp only [processFile] at hrun1
      rw [hsch] at hrun1
      simp [hext] at hrun1
    | ok ups =>
      cases hupse : ups.isEmpty with
      | true =>
        rcases r1 with ⟨t1, o1, w1⟩
        simp only [processFile] at hrun1
        rw [hsch] at hrun1
        simp [hext, hupse] at hrun1
        obtain ⟨h1, h2, h3⟩ := hrun1
        subst h1; subst h2; subst h3
        refine ⟨?_, rfl⟩
        simp only [processFile]
        rw [hsch]
        simp [hext, hupse]
      | false =>
        cases hmp : mapPathPairs (slug_from_filename jsonPath) (dayFor jsonPath)
            ((groupByNorm TARGET_WIDTH ups).map (fun e => e.1)) with
        | error e =>
          exfalso
          simp only [processFile] at hrun1
          rw [hsch] at hrun1
          simp [hext, hupse, hmp] at hrun1
        | ok pairs =>
          obtain ⟨htasks, hout, hwarns⟩ :=
            processFile_components ex fok jsonPath data a ups pairs r1 hsch hext hupse hmp
              hrun1
          have hmpo := mapPathPairs_ok (slug_from_filename jsonPath) (dayFor jsonPath) _
            pairs hmp
          have hnd : (pairs.map Prod.fst).Nodup := by
            rw [hmpo.1]
            exact groupByNorm_keys_nodup TARGET_WIDTH ups
          have hall' : ∀ np ∈ (planTasks ex pairs).2, fok np.1 = true :=
            fun np h => hall np (htasks ▸ h)
          have hex2 : ∀ np ∈ pairs, existsAfter ex fok r1.tasks np.2 = true := by
            intro np hnp
            by_cases hx : ex np.2 = true
            · simp [existsAfter, hx]
            · have hx' : ex np.2 = false := Bool.eq_false_iff.mpr hx
              have hmem : np ∈ (planTasks ex pairs).2 := by
                rw [planTasks_eq ex pairs hnd]
                exact List.mem_filter.mpr ⟨hnp, by simp [hx']⟩
              have hf := hall' np hmem
              rw [htasks]
              simp only [existsAfter, Bool.or_eq_true, List.any_eq_true]
              exact Or.inr ⟨np, hmem, by simp [hf]⟩
          have hplan2 : planTasks (existsAfter ex fok r1.tasks) pairs = (pairs, []) := by
            rw [planTasks_eq _ pairs hnd]
            have h1 : pairs.filter (fun np => existsAfter ex fok r1.tasks np.2) = pairs :=
              List.filter_eq_self.mpr (fun np hnp => hex2 np hnp)
            have h2 : pairs.filter (fun np => !existsAfter ex fok r1.tasks np.2) = [] := by
              rw [List.filter_eq_nil_iff]
              intro np hnp
              simp [hex2 np hnp]
            rw [h1, h2]
          have hlook : ∀ iu ∈ ups,
              lookupA (resolvedIdx ex fok pairs) (parse_and_adjust_size iu.2 TARGET_WIDTH)
                = lookupA pairs (parse_and_adjust_size iu.2 TARGET_WIDTH)
              ∧ (lookupA pairs (parse_and_adjust_size iu.2 TARGET_WIDTH)).isSome = true := by
            intro iu hiu
            have hkey : parse_and_adjust_size iu.2 TARGET_WIDTH ∈ pairs.map Prod.fst := by
              rw [hmpo.1]
              exact mem_groupByNorm_keys TARGET_WIDTH ups iu hiu
            rcases List.mem_map.mp hkey with ⟨np, hnp, hk⟩
            have h1 : lookupA (resolvedIdx ex fok pairs) np.1 = some np.2 :=
              lookupA_resolvedIdx_all ex fok pairs hnd hall' np hnp
            have h2 : lookupA pairs np.1 = some np.2 :=
              lookupA_eq_some_of_mem pairs hnd np.1 np.2 hnp
            rw [← hk]
            exact ⟨h1.trans h2.symm, by simp [h2]⟩
          have hmw : missingWarns ex fok pairs = [] := by
            rw [missingWarns_eq ex fok pairs hnd]
            have h2 : (pairs.filter (fun np => !ex np.2)).filter
                (fun np => !existsAfter ex fok (pairs.filter (fun np => !ex np.2)) np.2)
                  = [] := by
              rw [List.filter_eq_nil_iff]
              intro np hnp
              have hf : fok np.1 = true := hall' np (by rw [planTasks_eq ex pairs hnd]; exact hnp)
              have hEA : existsAfter ex fok (pairs.filter (fun np => !ex np.2)) np.2
                  = true := by
                simp only [existsAfter, Bool.or_eq_true, List.any_eq_true]
                exact Or.inr ⟨np, hnp, by simp [hf]⟩
              simp [hEA]
            rw [h2]
            simp
          have hF : ups.foldl (rewriteOne (resolvedIdx ex fok pairs)
                (slug_from_filename jsonPath) (dayFor jsonPath) TARGET_WIDTH)
                (a, missingWarns ex fok pairs)
              = ups.foldl (rewriteOne pairs (slug_from_filename jsonPath) (dayFor jsonPath)
                TARGET_WIDTH) (a, []) := by
            rw [hmw]
            exact rewrite_fold_congr _ pairs _ _ _ ups (a, [])
              (fun iu hiu => (hlook iu hiu).1)
          have hwempty : (ups.foldl (rewriteOne pairs (slug_from_filename jsonPath)
                (dayFor jsonPath) TARGET_WIDTH) (a, [])).2 = [] := by
            rw [rewrite_fold_warns]
            have hfil : ups.filter (fun iu =>
                (lookupA pairs (parse_and_adjust_size iu.2 TARGET_WIDTH)).isNone) = [] := by
              rw [List.filter_eq_nil_iff]
              intro iu hiu
              have := (hlook iu hiu).2
              cases hl : lookupA pairs (parse_and_adjust_size iu.2 TARGET_WIDTH) with
              | some v => simp [hl]
              | none => rw [hl] at this; simp at this
            rw [hfil]
            simp
          have hw1 : r1.warnings = [] := by
            rw [hwarns, congrArg Prod.snd hF, hwempty]
          refine ⟨?_, hw1⟩
          simp only [processFile]
          rw [hsch]
          simp only [hext, hupse, Bool.false_eq_true, if_false, hmp]
          rw [hplan2]
          simp only [afterDownload, List.foldl_nil]
          rw [hout, hF, hw1, hwempty]
  | null =>
    rcases r1 with ⟨t1, o1, w1⟩
    simp only [processFile] at hrun1
    rw [hsch] at hrun1
    simp at hrun1
    obtain ⟨h1, h2, h3⟩ := hrun1
    subst h1; subst h2; subst h3
    refine ⟨?_, rfl⟩
    simp only [processFile]
    rw [hsch]
  | bool b =>
    rcases r1 with ⟨t1, o1, w1⟩
    simp only [processFile] at hrun1
    rw [hsch] at hrun1
    simp at hrun1
    obtain ⟨h1, h2, h3⟩ := hrun1
    subst h1; subst h2; subst h3
    refine ⟨?_, rfl⟩
    simp only [processFile]
    rw [hsch]
  | num n =>
    rcases r1 with ⟨t1, o1, w1⟩
    simp only [processFile] at hrun1
    rw [hsch] at hrun1
    simp at hrun1
    obtain ⟨h1, h2, h3⟩ := hrun1
    subst h1; subst h2; subst h3
    refine ⟨?_, rfl⟩
    simp only [processFile]
    rw [hsch]
  | str s =>
    rcases r1 with ⟨t1, o1, w1⟩
    simp only [processFile] at hrun1
    rw [hsch] at hrun1
    simp at hrun1
    obtain ⟨h1, h2, h3⟩ := hrun1
    subst h1; subst h2; subst h3
    refine ⟨?_, rfl⟩
    simp only [processFile]
    rw [hsch]
  | obj kvs =>
    rcases r1 with ⟨t1, o1, w1⟩
    simp only [processFile] at hrun1
    rw [hsch] at hrun1
    simp at hrun1
    obtain ⟨h1, h2, h3⟩ := hrun1
    subst h1; subst h2; subst h3
    refine ⟨?_, rfl⟩
    simp only [processFile]
    rw [hsch]

set_option maxRecDepth 10000 in
/-- C1 counterexample: with every computed artifact path already existing
the run performs zero fetches, but the object it writes is NOT
byte-identical to the input — the `show_logo` fields are still rewritten
to public URLs, so the serialized bytes differ. -/
theorem C1_counterexample :
    processFile (fun p => p == logoPath) (fun _ => true) "today/chan.json" twoItemData
      = .ok (RunResult.mk [] (some twoItemOut) [])
    ∧ pyJsonDumps (.obj twoItemOut) 0 ≠ pyJsonDumps (.obj twoItemData) 0 :=
  ⟨rfl, by decide⟩

set_option maxRecDepth 10000 in
/-- C1 witness: after a first run whose single fetch succeeded,
re-processing the same input with the first run's artifacts present emits
zero fetch tasks and reproduces the first run's output and (empty)
warnings. -/
theorem C1_witness :
    processFile (existsAfter (fun _ => false) (fun _ => true)
        (RunResult.mk [(logoUrl, logoPath)] (some twoItemOut) []).tasks)
      (fun _ => false) "today/chan.json" twoItemData
      = .ok (RunResult.mk []
          (RunResult.mk [(logoUrl, logoPath)] (some twoItemOut) []).output
          (RunResult.mk [(logoUrl, logoPath)] (some twoItemOut) []).warnings)
    ∧ (RunResult.mk [(logoUrl, logoPath)] (some twoItemOut) []).warnings = [] :=
  C1_second_run_amended (fun _ => false) (fun _ => true) (fun _ => false) "today/chan.json"
    twoItemData (RunResult.mk [(logoUrl, logoPath)] (some twoItemOut) [])
    (by rfl) (by decide)
